import Mathlib

/-!
Verification of the `lcr` conversational-memory engine.

This file shallowly embeds the memory subsystem of the repository:
the graph store (both the in-memory back-end `InMemoryGraphStore` and the
labeled-property-graph back-end `FalkorGraphStore` from
`src/memory/graph_store.py`), the vector-store scoring
(`src/memory/vector_store.py`), the Context Assembler's vector leg
(`src/memory/context_assembler.py`) and the Observer distillation pipeline
(`src/observer/observer.py`).

Modelling conventions:
  * UTC timestamps become a `Nat` clock threaded through the state; each
    `datetime.utcnow()` in the source consumes one tick, so later calls get
    strictly larger stamps (faithful to a monotone wall clock).
  * Python floats that carry scores/confidences become `ℚ`.
  * Python dicts become association lists with Python's insertion-order
    update semantics (`setKey` / `mergeDict`).
  * The LLM generator is an oracle: each call site reads a prescribed
    outcome (a timeout, modelling `httpx.ReadTimeout`, or a response
    string).  The tolerant JSON layer (`parse_json_response`, `json.loads`)
    is abstracted as parser functions from response strings to optional
    structured data; `none` models the `JSONDecodeError`/`ValueError` paths
    the observer catches.
  * Exceptions become `Except Unit`; `.error ()` is a raised
    `httpx.ReadTimeout` that escaped to the caller.
-/

namespace LCR

/-- A Python scalar stored in a metadata / attributes dict. -/
inductive MetaVal where
  | bool (b : Bool)
  | nat (n : Nat)
  | str (s : String)
  deriving DecidableEq, Repr

/-- Python `d[k] = v` on an insertion-ordered dict: an existing key keeps its
position and gets the new value, a fresh key is appended. -/
def setAssoc {α : Type} (xs : List (String × α)) (k : String) (v : α) :
    List (String × α) :=
  if (xs.lookup k).isSome then
    xs.map (fun p => if p.1 = k then (k, v) else p)
  else
    xs ++ [(k, v)]

/-- `setAssoc` at metadata/attribute dicts. -/
def setKey (xs : List (String × MetaVal)) (k : String) (v : MetaVal) :
    List (String × MetaVal) :=
  setAssoc xs k v

/-- Python `{**old, **new}`: keys of `old` first, values overridden by `new`,
then the new keys in order. -/
def mergeDict (old new : List (String × MetaVal)) : List (String × MetaVal) :=
  new.foldl (fun acc kv => setKey acc kv.1 kv.2) old

/-- `GraphRelationship` dataclass (graph_store.py lines 33-47). -/
structure GraphRelationship where
  id : String
  subject : String
  predicate : String
  object : String
  metadata : List (String × MetaVal) := []
  created_at : Nat := 0
  status : Option String := none
  valid_until : Option Nat := none
  superseded_by : Option String := none
  source : String := "user_stated"
  confidence : ℚ := 1
  deriving DecidableEq, Repr

/-- The dict argument of `persist_relationships`; absent keys are `none`
(the source applies `rel.get(...)` defaults at persistence time). -/
structure RelDict where
  id : Option String := none
  subject : String
  predicate : String
  object : String
  metadata : List (String × MetaVal) := []
  status : Option String := none
  valid_until : Option Nat := none
  superseded_by : Option String := none
  source : Option String := none
  confidence : Option ℚ := none
  deriving DecidableEq, Repr

/-- The dict argument of `persist_entities`. -/
structure EntityDict where
  name : String
  type : Option String := none
  attributes : List (String × MetaVal) := []
  deriving DecidableEq, Repr

/-- The per-name record held in `InMemoryGraphStore.entities`. -/
structure EntityEntry where
  first_mentioned : Nat
  last_mentioned : Nat
  type : Option String := none
  attributes : List (String × MetaVal) := []
  deriving DecidableEq, Repr

/-- `InMemoryGraphStore` state: an insertion-ordered map of entities and an
append-only list of relationships (graph_store.py lines 79-82). -/
structure InMemoryGraphStore where
  entities : List (String × EntityEntry) := []
  relationships : List GraphRelationship := []
  deriving DecidableEq, Repr

/-- Update-or-append for the entity map, matching `self.entities[name] = entry`
on a Python dict. -/
def setEntity (es : List (String × EntityEntry)) (name : String) (e : EntityEntry) :
    List (String × EntityEntry) :=
  setAssoc es name e

/-- The entry written by one `persist_entities` iteration
(graph_store.py lines 86-93): `entry.setdefault("first_mentioned", now)`
keeps the old value, `last_mentioned` and `type` are overwritten, and the
attribute dicts are merged with the new keys winning. -/
def upsertEntry (now : Nat) (old : Option EntityEntry) (ent : EntityDict) :
    EntityEntry :=
  { first_mentioned := match old with
      | some e => e.first_mentioned
      | none => now
    last_mentioned := now
    type := ent.type
    attributes := mergeDict (match old with
      | some e => e.attributes
      | none => []) ent.attributes }

/-- `InMemoryGraphStore.persist_entities` (graph_store.py lines 84-93).
One `utcnow()` (`now`) is taken before the loop and shared by all entities. -/
def persistEntities (now : Nat) (store : InMemoryGraphStore)
    (entities : List EntityDict) : InMemoryGraphStore :=
  entities.foldl (fun st ent =>
    let entry := upsertEntry now (st.entities.lookup ent.name) ent
    { st with entities := setEntity st.entities ent.name entry }) store

/-- Build the `GraphRelationship` record appended for one dict
(graph_store.py lines 97-109); `c` is the `utcnow()` tick for this record and
also feeds the fresh-uuid fallback of `rel.get("id") or str(uuid.uuid4())`. -/
def recordOfRelDict (c : Nat) (rel : RelDict) : GraphRelationship :=
  { id := match rel.id with
      | some s => if s = "" then "uuid-" ++ toString c else s
      | none => "uuid-" ++ toString c
    subject := rel.subject
    predicate := rel.predicate
    object := rel.object
    metadata := rel.metadata
    created_at := c
    status := rel.status
    valid_until := rel.valid_until
    superseded_by := rel.superseded_by
    source := rel.source.getD "user_stated"
    confidence := rel.confidence.getD 1 }

/-- `InMemoryGraphStore.persist_relationships` (graph_store.py lines 95-110):
append one record per dict; `utcnow()` runs inside the loop, so the clock
advances per record. -/
def persistRelationships (store : InMemoryGraphStore) (clock : Nat)
    (rels : List RelDict) : InMemoryGraphStore × Nat :=
  rels.foldl (fun acc rel =>
    ({ acc.1 with relationships := acc.1.relationships ++ [recordOfRelDict acc.2 rel] },
     acc.2 + 1)) (store, clock)

/-- Truthiness of the optional `predicate` filter argument: Python's
`if predicate` treats `None` and `""` as false. -/
def predTruthy : Option String → Bool
  | none => false
  | some s => s ≠ ""

/-- `InMemoryGraphStore.query` (graph_store.py lines 112-120). -/
def queryStore (store : InMemoryGraphStore) (subject : String)
    (predicate : Option String := none) : List GraphRelationship :=
  store.relationships.filter (fun r =>
    r.subject = subject ∧ (predTruthy predicate → r.predicate = predicate.getD ""))

/-- The loop body of `InMemoryGraphStore.search_relationships`
(graph_store.py lines 133-146).  Note the `len(found) >= limit` break is
checked after each iteration, whether or not the row matched. -/
def searchGo (names : List String) (limit : Nat) :
    List GraphRelationship → List (String × String × String) →
    List GraphRelationship → List GraphRelationship
  | [], _, found => found
  | r :: rest, seen, found =>
    if r.subject ∈ names ∨ r.object ∈ names then
      if (r.subject, r.predicate, r.object) ∈ seen then
        if limit ≤ found.length then found
        else searchGo names limit rest seen found
      else
        if limit ≤ (found ++ [r]).length then found ++ [r]
        else searchGo names limit rest
          ((r.subject, r.predicate, r.object) :: seen) (found ++ [r])
    else
      if limit ≤ found.length then found
      else searchGo names limit rest seen found

/-- `InMemoryGraphStore.search_relationships`. -/
def searchRelationships (store : InMemoryGraphStore) (names : List String)
    (limit : Nat) : List GraphRelationship :=
  searchGo names limit store.relationships [] []

/-- The in-place mutation `mark_contradiction` performs on the matching
record (graph_store.py lines 151-156). -/
def contradictionUpdate (now : Nat) (sup : String) (r : GraphRelationship) :
    GraphRelationship :=
  { r with
    metadata := setKey (setKey r.metadata "still_valid" (.bool false))
      "superseded_at" (.nat now)
    superseded_by := some sup
    status := some "completed" }

/-- The scan of `mark_contradiction`: update the first record whose id
matches, then `break`. -/
def markGo (now : Nat) (existingId sup : String) :
    List GraphRelationship → List GraphRelationship
  | [] => []
  | r :: rest =>
    if r.id = existingId then contradictionUpdate now sup r :: rest
    else r :: markGo now existingId sup rest

/-- `InMemoryGraphStore.mark_contradiction` (graph_store.py lines 148-157).
Ids are strings here; the source's `str(existing_id)` normalisation of an
integer id is the identity on this model. -/
def markContradiction (store : InMemoryGraphStore) (now : Nat)
    (existingId sup : String) : InMemoryGraphStore :=
  { store with relationships := markGo now existingId sup store.relationships }

/-! ## Labeled-property-graph back-end (`FalkorGraphStore`)

The Cypher queries of `FalkorGraphStore` are embedded over an explicit graph
state: nodes keyed by `name` and edges keyed by an internal integer id.
`MERGE` on a node/edge pattern matches an existing one or creates it.  String
properties whose source value is Python `None` are stored as the literal
string "null", exactly as the source serialises them. -/

/-- A node as written by `FalkorGraphStore.persist_entities`.  The `SET`
clause never touches `first_mentioned`, so it stays `none` forever. -/
structure FalkorEntityNode where
  name : String
  category : String := "Entity"
  attributes : List (String × MetaVal) := []
  last_mentioned : Option Nat := none
  first_mentioned : Option Nat := none
  deriving DecidableEq, Repr

/-- An edge as written by `FalkorGraphStore.persist_relationships` /
`mark_contradiction`. -/
structure FalkorEdge where
  rel_id : Nat
  subject : String
  predicate : String
  object : String
  metadata : List (String × MetaVal) := []
  created_at : Nat := 0
  still_valid : Bool := true
  status : String := "null"
  valid_until : String := "null"
  superseded_by : String := "null"
  source : String := "user_stated"
  confidence : ℚ := 1
  superseded_at : Option Nat := none
  deriving DecidableEq, Repr

structure FalkorGraph where
  nodes : List FalkorEntityNode := []
  edges : List FalkorEdge := []
  nextEdgeId : Nat := 0
  deriving DecidableEq, Repr

/-- One iteration of `FalkorGraphStore.persist_entities`
(graph_store.py lines 167-183): `MERGE (memo:Entity {name:$name})` then
`SET memo.category = ..., memo.attributes = ..., memo.last_mentioned = ...`.
The attributes JSON replaces the stored property wholesale. -/
def falkorWrite (now : Nat) (ent : EntityDict) (n : FalkorEntityNode) :
    FalkorEntityNode :=
  { n with
    category := ent.type.getD "Entity"
    attributes := ent.attributes
    last_mentioned := some now }

def falkorPersistEntity (now : Nat) (g : FalkorGraph) (ent : EntityDict) :
    FalkorGraph :=
  if ∃ n ∈ g.nodes, n.name = ent.name then
    { g with nodes := g.nodes.map (fun n =>
        if n.name = ent.name then falkorWrite now ent n else n) }
  else
    { g with nodes := g.nodes ++ [falkorWrite now ent { name := ent.name }] }

/-- `FalkorGraphStore.persist_entities`: the loop takes a fresh
`utcnow().isoformat()` per entity, so the clock advances per entity. -/
def falkorPersistEntities (g : FalkorGraph) (clock : Nat)
    (entities : List EntityDict) : FalkorGraph × Nat :=
  entities.foldl (fun acc ent => (falkorPersistEntity acc.2 acc.1 ent, acc.2 + 1))
    (g, clock)

/-- `FalkorGraphStore.mark_contradiction` (graph_store.py lines 266-280):
`MATCH ()-[relation]->() WHERE id(relation) = $rel_id SET
relation.still_valid = false, relation.superseded_by = $superseded_by,
relation.superseded_at = $current_ts`.  It does not touch `status` and it
does not touch the `metadata` property. -/
def falkorSupersede (now : Nat) (sup : String) (e : FalkorEdge) : FalkorEdge :=
  { e with still_valid := false, superseded_by := sup, superseded_at := some now }

def falkorMarkContradiction (now : Nat) (g : FalkorGraph) (relId : Nat)
    (sup : String) : FalkorGraph :=
  { g with edges := g.edges.map (fun e =>
      if e.rel_id = relId then falkorSupersede now sup e else e) }

/-! ## Vector store scoring and the Context Assembler vector leg -/

/-- A row returned by the ANN/naive candidate stage of `vector_search`;
`none` fields model keys absent from the dict, read back through
`item.get(key, default)`. -/
structure VectorHit where
  content : String := ""
  utility_score : Option ℚ := none
  fact_type : Option String := none
  created_at : Option Nat := none
  deriving DecidableEq, Repr

/-- Stable descending insertion of `x` into an already-sorted list: `x` goes
after any earlier element with an equal or larger key, matching Python's
stable `list.sort(..., reverse=True)`. -/
def insDesc (key : VectorHit × ℚ → ℚ) (x : VectorHit × ℚ) :
    List (VectorHit × ℚ) → List (VectorHit × ℚ)
  | [] => [x]
  | y :: ys => if key y < key x then x :: y :: ys else y :: insDesc key x ys

def sortDescBy (key : VectorHit × ℚ → ℚ) (l : List (VectorHit × ℚ)) :
    List (VectorHit × ℚ) :=
  l.foldl (fun acc x => insDesc key x acc) []

/-- `vector_search` (vector_store.py lines 70-90): the engine returns up to
`2·top_k` candidates (`candidates` models that ordered result), each gets
`_combined_score = 0.7 · rank_score + 0.3 · utility` with
`rank_score = 1 - i / max(len(result), 1)`, then the list is sorted by the
combined score (descending, stable) and truncated to `top_k`. -/
def vectorSearch (candidates : List VectorHit) (topK : Nat) :
    List (VectorHit × ℚ) :=
  let result := candidates.take (topK * 2)
  let n : ℚ := max result.length 1
  let scored := result.enum.map (fun p =>
    (p.2, (0.7 : ℚ) * (1 - (p.1 : ℚ) / n) + (0.3 : ℚ) * (p.2.utility_score.getD (0.5 : ℚ))))
  (sortDescBy (fun q => q.2) scored).take topK

/-- `RetrievedContext` dataclass (context_assembler.py lines 14-23). -/
structure RetrievedContext where
  content : String
  source : String
  relevance_score : ℚ
  temporal_score : ℚ
  final_score : ℚ
  created_at : Nat
  fact_type : String := "episodic"
  utility_score : ℚ := 0.5
  deriving DecidableEq, Repr

/-- `ContextAssembler._vector_search` (context_assembler.py lines 84-107):
map every hit from the store to a `RetrievedContext`.  The source reads
`hit.get("utility_score", 0.5)` for the relevance — it ignores the
`_combined_score` that `vector_search` computed. -/
def assemblerVectorSearch (candidates : List VectorHit) (topK : Nat)
    (now : Nat) : List RetrievedContext :=
  (vectorSearch candidates topK).map (fun hit =>
    { content := hit.1.content
      source := "vector"
      relevance_score := hit.1.utility_score.getD (0.5 : ℚ)
      temporal_score := 1
      final_score := hit.1.utility_score.getD (0.5 : ℚ)
      created_at := hit.1.created_at.getD now
      fact_type := hit.1.fact_type.getD "episodic"
      utility_score := hit.1.utility_score.getD (0.5 : ℚ) })

/-! ## Observer pipeline (`src/observer/observer.py`) -/

/-- `UtilityGrade` enum (observer.py lines 49-57). -/
inductive UtilityGrade where
  | DISCARD
  | STORE
  | IMPORTANT
  | LOW
  | MEDIUM
  | HIGH
  deriving DecidableEq, Repr

/-- `Observer._utility_to_score` (observer.py lines 373-385). -/
def utilityToScore : UtilityGrade → ℚ
  | .DISCARD => 0
  | .STORE => 0.6
  | .IMPORTANT => 1
  | .LOW => 0.3
  | .MEDIUM => 0.6
  | .HIGH => 1

/-- Python `str.upper()` (over the character list, which the kernel can
evaluate). -/
def strUpper (s : String) : String := ⟨s.data.map Char.toUpper⟩

/-- Python `str.lower()`. -/
def strLower (s : String) : String := ⟨s.data.map Char.toLower⟩

/-- Python `str.strip()`: drop whitespace from both ends. -/
def pyStrip (s : String) : String :=
  ⟨((s.data.dropWhile Char.isWhitespace).reverse.dropWhile
      Char.isWhitespace).reverse⟩

/-- The response parsing of `Observer._grade_utility` (observer.py lines
173-182): `cleaned = response.strip().upper()`, then
`UtilityGrade(cleaned.lower())`, defaulting to `LOW` on `ValueError`. -/
def gradeOfString (response : String) : UtilityGrade :=
  let cleaned := strUpper (pyStrip response)
  match strLower cleaned with
  | "discard" => .DISCARD
  | "store" => .STORE
  | "important" => .IMPORTANT
  | "low" => .LOW
  | "medium" => .MEDIUM
  | "high" => .HIGH
  | _ => .LOW

/-- One generator invocation either times out (`httpx.ReadTimeout`) or
produces a response string. -/
inductive GenOutcome where
  | timeout
  | ok (response : String)
  deriving DecidableEq

/-- `retry_on_timeout` (observer.py lines 29-45): up to `maxRetries`
attempts; the first non-timeout response wins; if every attempt times out
the `ReadTimeout` is re-raised (`.error ()`). -/
def retryOnTimeoutAux (attempts : Nat → GenOutcome) (i : Nat) :
    Nat → Except Unit String
  | 0 => .error ()
  | n + 1 =>
    match attempts i with
    | .ok r => .ok r
    | .timeout => if n = 0 then .error () else retryOnTimeoutAux attempts (i + 1) n

def retryOnTimeout (attempts : Nat → GenOutcome) (maxRetries : Nat := 3) :
    Except Unit String :=
  retryOnTimeoutAux attempts 0 maxRetries

/-- The well-shaped dict produced by `parse_json_response` in
`Observer._extract_structured_data`, read back through `.get` defaults.
Required keys (`subject`/`predicate`/`object` of each relationship, `name`
of each entity) are total here because a dict missing them raises on its
`[...]` read path; such responses are `ExtractOutcome.badShape` below. -/
structure ExtractionData where
  fact_type : Option String := none
  entities : List EntityDict := []
  relationships : List RelDict := []
  deriving DecidableEq, Repr

/-- The observable outcome of parsing one extraction response.
`parse_json_response` raising (`JSONDecodeError`/`ValueError`) is caught by
`_extract_structured_data` and degrades to empty structures; a response
that parses to a non-object, or to an object whose members do not have the
shape the observer's reads expect (`user_data.get(...)` on a list raises
`AttributeError` at observer.py:120; a relationship entry missing
`subject`/`predicate` raises `KeyError` at observer.py:136), raises an
exception nothing catches. -/
inductive ExtractOutcome where
  | parseRaised
  | badShape
  | data (d : ExtractionData)

/-- `_extract_structured_data` + the reads at observer.py:120-143:
a caught parse failure yields the empty dict; a bad shape raises. -/
def extractionResult : ExtractOutcome → Except Unit ExtractionData
  | .parseRaised => .ok {}
  | .badShape => .error ()
  | .data d => .ok d

/-- One entry of the `contradictions` array consumed by
`Observer._check_contradictions`.  The fields read with `[...]`
(`existing_id`, `existing_statement`, `reason`, observer.py:232-235) are
optional: they are only read for high-confidence items, and a missing key
raises `KeyError` there, outside every `except`. -/
structure ContradictionItem where
  existing_id : Option String := none
  existing_statement : Option String := none
  reason : Option String := none
  temporal_type : Option String := none
  confidence : Option String := none
  deriving DecidableEq, Repr

/-- The observable outcome of parsing one contradiction-detection
response.  `parseRaised` (the caught `JSONDecodeError`/`KeyError`/
`ValueError` tuple at observer.py:299) falls back to the simple check;
`badShape` covers a response whose parsed value raises on its read path
(non-object top level at `result.get` observer.py:297, a non-empty
non-list `contradictions` member or non-object entries raising in the loop
at observer.py:228-230) — none of those exceptions are caught; `items`
covers an object whose `contradictions` member reads back as a (possibly
defaulted-empty) list of objects. -/
inductive ContraOutcome where
  | parseRaised
  | badShape
  | items (l : List ContradictionItem)

/-- `f"{r.subject} {r.predicate} {r.object}"` for a stored relationship —
the `existing_statement` the simple fallback check reports. -/
def statementOf (r : GraphRelationship) : String :=
  r.subject ++ " " ++ r.predicate ++ " " ++ r.object

/-- Python `str.split()`: split on whitespace runs, dropping empties.
`acc` holds the characters of the token in progress, reversed. -/
def pySplitAux : List Char → List Char → List String
  | [], acc => if acc = [] then [] else [⟨acc.reverse⟩]
  | c :: rest, acc =>
    if c.isWhitespace then
      if acc = [] then pySplitAux rest []
      else (⟨acc.reverse⟩ : String) :: pySplitAux rest []
    else pySplitAux rest (c :: acc)

def pySplit (s : String) : List String :=
  pySplitAux s.data []

/-- A contradiction item the resolution loop can process without raising:
if it is high-confidence, its `[...]`-read keys are present and its
existing statement splits into at least two tokens (so the superseded-copy
persistence's `split()[0]`/`[1]`/`[-1]` reads do not raise). -/
def itemResolvable (item : ContradictionItem) : Prop :=
  item.confidence = some "high" →
    ∃ eid stmt rsn, item.existing_id = some eid ∧
      item.existing_statement = some stmt ∧ item.reason = some rsn ∧
      2 ≤ (pySplit stmt).length

/-- The contradiction dict `Observer._check_contradictions` appends to its
result (observer.py lines 231-238); `resolution_needed` is always true. -/
structure ContradictionRecord where
  existing_fact_id : String
  existing_statement : String
  new_statement : String
  reason : String
  temporal_type : Option String
  deriving DecidableEq, Repr

/-- The JSON layer: `parse_json_response` / `json.loads` outcomes for each
call kind, plus the embedder (`Embedder.embed`, modelled as total; its own
transport failures are outside this model).  For the queries call,
`none` models both a `json.loads` failure (caught) and a non-list JSON
value (the `isinstance` check) — each yields `[]` without raising, and
`str(item)` is total. -/
structure Parsers where
  extraction : String → ExtractOutcome
  queriesOf : String → Option (List String)
  contradictions : String → ContraOutcome
  embed : String → List ℚ

/-- The generator oracle: per call site, the outcome of each retry attempt.
Contradiction-detection calls go through `self.llm.generate` directly (no
retry wrapper), one outcome per call index. -/
structure GenOracle where
  utilityAttempts : Nat → GenOutcome
  extractUserAttempts : Nat → GenOutcome
  extractAssistantAttempts : Nat → GenOutcome
  summaryAttempts : Nat → GenOutcome
  queriesAttempts : Nat → GenOutcome
  contradictionResponses : Nat → GenOutcome

/-- Tagging of user-side relationships (observer.py lines 124-127):
`source = "user_stated"`, `confidence = 1.0`. -/
def tagUser (rels : List RelDict) : List RelDict :=
  rels.map (fun r => { r with source := some "user_stated", confidence := some 1 })

/-- Tagging of assistant-side relationships (observer.py lines 129-132):
`source = "assistant_inferred"`, `confidence = 0.3`. -/
def tagAssistant (rels : List RelDict) : List RelDict :=
  rels.map (fun r =>
    { r with source := some "assistant_inferred", confidence := some (0.3 : ℚ) })

/-- `user_keys = {(r["subject"], r["predicate"]) for r in user_relationships}`. -/
def userKeySet (userRels : List RelDict) : List (String × String) :=
  userRels.map (fun r => (r.subject, r.predicate))

/-- The source-tagged merge of observer.py lines 122-142: tag both sides,
then drop every assistant-inferred relationship whose (subject, predicate)
collides with a user-stated one. -/
def mergeTurnRelationships (userRels assistantRels : List RelDict) :
    List RelDict :=
  let tu := tagUser userRels
  let ta := tagAssistant assistantRels
  tu ++ ta.filter (fun r => decide ((r.subject, r.predicate) ∉ userKeySet tu))

/-- Keep-first deduplication by id, modelling
`{rel.id: rel for rel in subject_rels + object_rels}` over records drawn
from one store (identical ids carry identical records). -/
def dedupByIdGo : List GraphRelationship → List GraphRelationship →
    List String → List GraphRelationship
  | [], acc, _ => acc
  | r :: rest, acc, seen =>
    if r.id ∈ seen then dedupByIdGo rest acc seen
    else dedupByIdGo rest (acc ++ [r]) (r.id :: seen)

def dedupById (rels : List GraphRelationship) : List GraphRelationship :=
  dedupByIdGo rels [] []

/-- `Observer._get_related_facts` (observer.py lines 253-268).  Note the
source queries the object with `graph_store.query(obj)`, i.e. as a subject;
Python's `if obj:` makes the empty string behave like `None`. -/
def getRelatedFacts (store : InMemoryGraphStore) (subject obj : String) :
    List GraphRelationship :=
  let subjectRels := queryStore store subject none
  if obj = "" then subjectRels
  else dedupById (subjectRels ++ queryStore store obj none)

/-- `Observer._simple_contradiction_check` (observer.py lines 304-322):
same subject and predicate with a different object is a high-confidence
contradiction; the produced dicts always carry every key. -/
def simpleContradictionCheck (newRel : RelDict)
    (existingRels : List GraphRelationship) : List ContradictionItem :=
  existingRels.filterMap (fun er =>
    if er.subject = newRel.subject ∧ er.predicate = newRel.predicate ∧
        er.object ≠ newRel.object then
      some { existing_id := some er.id
             existing_statement := some (statementOf er)
             reason := some "Same predicate with different object"
             temporal_type := none
             confidence := some "high" }
    else none)

/-- The statement `f"{rel['subject']} {rel['predicate']} {rel['object']}"`. -/
def newStatementOf (rel : RelDict) : String :=
  rel.subject ++ " " ++ rel.predicate ++ " " ++ rel.object

/-- The inner loop of `Observer._check_contradictions` (observer.py lines
228-249): for every item with `.get("confidence") == "high"`, build the
contradiction dict — the `[...]` reads of `existing_id`,
`existing_statement` and `reason` raise an uncaught `KeyError` when the
key is absent — then immediately call `graph_store.mark_contradiction`
(one `utcnow()` tick each). -/
def applyHighContradictions (rel : RelDict) :
    List ContradictionItem → InMemoryGraphStore → Nat →
    Except Unit (List ContradictionRecord × InMemoryGraphStore × Nat)
  | [], store, clock => .ok ([], store, clock)
  | item :: rest, store, clock =>
    if item.confidence = some "high" then
      match item.existing_id, item.existing_statement, item.reason with
      | some eid, some stmt, some rsn =>
        match applyHighContradictions rel rest
          (markContradiction store clock eid (newStatementOf rel))
          (clock + 1) with
        | .ok (recs, st, c) =>
          .ok ({ existing_fact_id := eid
                 existing_statement := stmt
                 new_statement := newStatementOf rel
                 reason := rsn
                 temporal_type := item.temporal_type } :: recs, st, c)
        | .error e => .error e
      | _, _, _ => .error ()
    else applyHighContradictions rel rest store clock

/-- The contradiction list obtained from one `_detect_semantic_contradictions`
response: the parsed `contradictions` array, the simple fallback check when
the parse raised (caught), or an uncaught exception when the parsed value
has the wrong shape (observer.py:297 / 228-230). -/
def contraItemsOf (P : Parsers) (rel : RelDict)
    (existing : List GraphRelationship) (resp : String) :
    Except Unit (List ContradictionItem) :=
  match P.contradictions resp with
  | .badShape => .error ()
  | .parseRaised => .ok (simpleContradictionCheck rel existing)
  | .items l => .ok l

/-- `Observer._check_contradictions` + `_detect_semantic_contradictions`
(observer.py lines 211-302).  Per new relationship: fetch related facts,
skip when empty; otherwise one un-retried generator call whose timeout
propagates; a caught parse failure falls back to the simple check, a
bad-shape response or a key-missing high-confidence item raises.
`callIdx` counts contradiction-detection generator calls. -/
def checkContradictions (P : Parsers) (oracle : GenOracle) :
    List RelDict → InMemoryGraphStore → Nat → Nat →
    Except Unit (List ContradictionRecord × InMemoryGraphStore × Nat × Nat)
  | [], store, clock, callIdx => .ok ([], store, clock, callIdx)
  | rel :: rest, store, clock, callIdx =>
    if (getRelatedFacts store rel.subject rel.object).isEmpty then
      checkContradictions P oracle rest store clock callIdx
    else
      match oracle.contradictionResponses callIdx with
      | .timeout => .error ()
      | .ok resp =>
        match contraItemsOf P rel
          (getRelatedFacts store rel.subject rel.object) resp with
        | .error e => .error e
        | .ok items =>
          match applyHighContradictions rel items store clock with
          | .error e => .error e
          | .ok (recs1, st1, c1) =>
            match checkContradictions P oracle rest st1 c1 (callIdx + 1) with
            | .ok (recs, st, c, i) => .ok (recs1 ++ recs, st, c, i)
            | .error e => .error e

/-- The "superseded" copy rebuilt from `existing_statement.split()`
(observer.py lines 361-371): subject = token 0, predicate = token 1,
object = last token.  With fewer than two tokens the `split()[0]` /
`split()[1]` / `split()[-1]` reads raise an uncaught `IndexError`
(`none` here).  The dict carries only those keys plus the metadata, so
`superseded_by` defaults to `None` and `source` to `"user_stated"`. -/
def supersededCopyDict (statement : String) : Option RelDict :=
  if 2 ≤ (pySplit statement).length then
    some { subject := (pySplit statement).headD ""
           predicate := ((pySplit statement).get? 1).getD ""
           object := (pySplit statement).getLast?.getD ""
           metadata := [("superseded", .bool true)] }
  else none

/-- The loop over recorded contradictions at the end of
`Observer._persist_to_graph_store`: one `persist_relationships` call per
contradiction, each appending the superseded copy (or raising on a
too-short statement). -/
def persistContradictions :
    List ContradictionRecord → InMemoryGraphStore × Nat →
    Except Unit (InMemoryGraphStore × Nat)
  | [], acc => .ok acc
  | contra :: rest, acc =>
    match supersededCopyDict contra.existing_statement with
    | none => .error ()
    | some d => persistContradictions rest (persistRelationships acc.1 acc.2 [d])

/-- `Observer._persist_to_graph_store` (observer.py lines 352-371): persist
the entities, append the merged relationships, then for every recorded
contradiction append one extra "superseded" copy. -/
def persistToGraphStore (store : InMemoryGraphStore) (clock : Nat)
    (entities : List EntityDict) (rels : List RelDict)
    (contradictions : List ContradictionRecord) :
    Except Unit (InMemoryGraphStore × Nat) :=
  persistContradictions contradictions
    (persistRelationships (persistEntities clock store entities) (clock + 1)
      rels)

/-- `EMBED_DIM` (vector_store.py line 12): the fixed embedding dimension
`persist_chunks` enforces. -/
def EMBED_DIM : Nat := 4096

/-- The `MemoryChunk` written by `Observer._persist_to_vector_store`
(observer.py lines 324-350). -/
structure MemoryChunk where
  content : String
  summary : String
  embedding : List ℚ := []
  chunk_type : String := "conversation"
  source_conversation_id : String
  turn_index : Nat
  created_at : Nat := 0
  access_count : Nat := 0
  retrieval_queries : List String := []
  utility_score : ℚ
  fact_type : String := "episodic"
  deriving DecidableEq, Repr

/-- `ObserverOutput` dataclass (observer.py lines 60-67). -/
structure ObserverOutput where
  utility_grade : UtilityGrade
  summary : Option String
  entities : List EntityDict
  relationships : List RelDict
  contradictions : List ContradictionRecord
  retrieval_queries : List String
  deriving DecidableEq, Repr

/-- The observable outcome of one `process_turn` run: the returned output,
the graph-store state, the clock, the number of generator call sites
executed, and the vector chunk persisted (if any). -/
structure TurnResult where
  output : ObserverOutput
  store : InMemoryGraphStore
  clock : Nat
  genCalls : Nat
  persistedChunk : Option MemoryChunk
  deriving DecidableEq, Repr

/-- `Observer.process_turn` (observer.py lines 85-168) over the in-memory
graph store.  `vectorTable` is whether a vector table is configured
(`persist_chunks` returns without writing — or checking — when
`table is None`).  Exceptions the source lets escape are `.error ()`:
a `ReadTimeout` surviving all retries (or any other uncaught generator
transport error, which propagates even faster), a timeout of the
un-retried contradiction-detection call, an `AttributeError`/`KeyError`/
`TypeError` from a parsed-but-ill-shaped extraction or contradiction
response, a `KeyError` on a high-confidence item missing its keys, an
`IndexError` splitting a too-short `existing_statement` at persistence,
and the `ValueError` from `persist_chunks` when the embedding length is
not `EMBED_DIM`.  The persistence `gather` does not cancel its sibling
task, so an exception there still leaves the other store written;
`Except Unit` only records that the turn raised. -/
def processTurn (P : Parsers) (oracle : GenOracle) (vectorTable : Bool)
    (userMessage assistantResponse conversationId : String) (turnIndex : Nat)
    (store : InMemoryGraphStore) (clock : Nat) : Except Unit TurnResult :=
  let combined := "USER: " ++ userMessage ++ "\nASSISTANT: " ++ assistantResponse
  match retryOnTimeout oracle.utilityAttempts with
  | .error e => .error e
  | .ok utilityResp =>
    let grade := gradeOfString utilityResp
    if grade = .DISCARD then
      .ok { output := { utility_grade := grade, summary := none, entities := [],
                        relationships := [], contradictions := [],
                        retrieval_queries := [] }
            store := store, clock := clock, genCalls := 1, persistedChunk := none }
    else
      match retryOnTimeout oracle.extractUserAttempts,
            retryOnTimeout oracle.extractAssistantAttempts,
            retryOnTimeout oracle.summaryAttempts,
            retryOnTimeout oracle.queriesAttempts with
      | .ok ur, .ok ar, .ok sr, .ok qr =>
        match extractionResult (P.extraction ur),
              extractionResult (P.extraction ar) with
        | .ok userData, .ok assistantData =>
          let summary := pyStrip sr
          let queries := (P.queriesOf qr).getD []
          let entities := userData.entities ++ assistantData.entities
          let relationships :=
            mergeTurnRelationships userData.relationships
              assistantData.relationships
          let factType := userData.fact_type.getD "episodic"
          match checkContradictions P oracle relationships store clock 0 with
          | .error e => .error e
          | .ok (contras, store2, clock2, contraCalls) =>
            let chunk : MemoryChunk :=
              { content := combined
                summary := summary
                embedding := P.embed combined
                source_conversation_id := conversationId
                turn_index := turnIndex
                created_at := clock2
                retrieval_queries := queries
                utility_score := utilityToScore grade
                fact_type := factType }
            match persistToGraphStore store2 (clock2 + 1) entities
              relationships contras with
            | .error e => .error e
            | .ok persisted =>
              if vectorTable ∧ (P.embed combined).length ≠ EMBED_DIM then
                .error ()
              else
                .ok { output := { utility_grade := grade,
                                  summary := some summary,
                                  entities := entities,
                                  relationships := relationships,
                                  contradictions := contras,
                                  retrieval_queries := queries }
                      store := persisted.1
                      clock := persisted.2
                      genCalls := 5 + contraCalls
                      persistedChunk := if vectorTable then some chunk else none }
        | .error e, _ => .error e
        | _, .error e => .error e
      | .error e, _, _, _ => .error e
      | _, .error e, _, _ => .error e
      | _, _, .error e, _ => .error e
      | _, _, _, .error e => .error e

/-! ## Derived observables and concrete scenarios used by the theorems -/

/-- Number of live (not superseded) relationships stored for one
(subject, predicate) pair — the quantity bounded by invariant (P3). -/
def liveCount (store : InMemoryGraphStore) (subject predicate : String) : Nat :=
  (store.relationships.filter (fun r =>
    r.subject = subject ∧ r.predicate = predicate ∧ r.superseded_by = none)).length

/-- The (subject, predicate, object) deduplication key of
`search_relationships`. -/
def keyOf (r : GraphRelationship) : String × String × String :=
  (r.subject, r.predicate, r.object)

/-- A JSON layer in which nothing parses — every generator response is
malformed in the caught way (`JSONDecodeError`/`ValueError`). -/
def emptyParsers : Parsers :=
  { extraction := fun _ => .parseRaised
    queriesOf := fun _ => none
    contradictions := fun _ => .parseRaised
    embed := fun _ => [] }

/-- A JSON layer whose extraction responses are valid JSON but not
objects: `user_data.get("entities", [])` raises `AttributeError`
(observer.py:120). -/
def badShapeParsers : Parsers :=
  { extraction := fun _ => .badShape
    queriesOf := fun _ => none
    contradictions := fun _ => .parseRaised
    embed := fun _ => [] }

/-- A generator that answers `DISCARD` to the utility prompt (the other
call sites are never reached on that path). -/
def discardOracle : GenOracle :=
  { utilityAttempts := fun _ => .ok "DISCARD"
    extractUserAttempts := fun _ => .ok ""
    extractAssistantAttempts := fun _ => .ok ""
    summaryAttempts := fun _ => .ok ""
    queriesAttempts := fun _ => .ok ""
    contradictionResponses := fun _ => .ok "" }

/-- A generator whose every call times out on every retry attempt. -/
def allTimeoutOracle : GenOracle :=
  { utilityAttempts := fun _ => .timeout
    extractUserAttempts := fun _ => .timeout
    extractAssistantAttempts := fun _ => .timeout
    summaryAttempts := fun _ => .timeout
    queriesAttempts := fun _ => .timeout
    contradictionResponses := fun _ => .timeout }

/-- A generator that always responds (with junk) and never times out. -/
def junkOracle : GenOracle :=
  { utilityAttempts := fun _ => .ok "malformed"
    extractUserAttempts := fun _ => .ok "not json"
    extractAssistantAttempts := fun _ => .ok "not json"
    summaryAttempts := fun _ => .ok "whatever"
    queriesAttempts := fun _ => .ok "not a list"
    contradictionResponses := fun _ => .ok "not json" }

/-- Employment-change scenario (spec §8, scenario 1): the store already
holds `User WORKS_AT Acme`, live. -/
def storeC1 : InMemoryGraphStore :=
  { entities := []
    relationships := [{ id := "r0", subject := "User", predicate := "WORKS_AT",
                        object := "Acme", created_at := 0 }] }

/-- Generator behaviour for the employment-change turn: utility IMPORTANT,
fixed extraction markers, unparseable contradiction output (so the simple
same-(subject, predicate) fallback fires). -/
def oracleC1 : GenOracle :=
  { utilityAttempts := fun _ => .ok "IMPORTANT"
    extractUserAttempts := fun _ => .ok "USER_JSON"
    extractAssistantAttempts := fun _ => .ok "ASSISTANT_JSON"
    summaryAttempts := fun _ => .ok "User now works at NewCorp."
    queriesAttempts := fun _ => .ok "[]"
    contradictionResponses := fun _ => .ok "NOT_JSON" }

/-- JSON layer for the employment-change turn: the user-side extraction
yields `User WORKS_AT NewCorp`; the contradiction response is unparseable
(caught), so the simple fallback fires. -/
def parsersC1 : Parsers :=
  { extraction := fun s =>
      if s = "USER_JSON" then
        .data { fact_type := some "core"
                entities := [{ name := "User", type := some "Person" },
                             { name := "NewCorp", type := some "Organization" }]
                relationships := [{ subject := "User", predicate := "WORKS_AT",
                                    object := "NewCorp" }] }
      else .data {}
    queriesOf := fun _ => none
    contradictions := fun _ => .parseRaised
    embed := fun _ => [] }

/-- JSON layer whose contradiction responses parse to an object carrying
one high-confidence item with every `[...]`-read key absent: building the
contradiction dict raises `KeyError` (observer.py:232). -/
def missingKeyParsers : Parsers :=
  { extraction := fun s =>
      if s = "USER_JSON" then
        .data { relationships := [{ subject := "User", predicate := "WORKS_AT",
                                    object := "NewCorp" }] }
      else .data {}
    queriesOf := fun _ => none
    contradictions := fun _ => .items [{ confidence := some "high" }]
    embed := fun _ => [] }

/-- A benign JSON layer whose embedder output has the wrong length
(0 ≠ 4096): with a vector table configured, `persist_chunks` raises
`ValueError` (vector_store.py:63-64). -/
def embedMismatchParsers : Parsers :=
  { extraction := fun _ => .parseRaised
    queriesOf := fun _ => none
    contradictions := fun _ => .parseRaised
    embed := fun _ => [] }

/-- A single vector-store row with stored utility 0.5. -/
def candsC7 : List VectorHit :=
  [{ content := "USER: I live in Paris\nASSISTANT: Noted", utility_score := some (0.5 : ℚ) }]

/-- The `RetrievedContext` the assembler builds for the single row of
`candsC7`. -/
def rcC7 : RetrievedContext :=
  { content := "USER: I live in Paris\nASSISTANT: Noted"
    source := "vector"
    relevance_score := 0.5
    temporal_score := 1
    final_score := 0.5
    created_at := 0
    fact_type := "episodic"
    utility_score := 0.5 }

/-- Older and newer relationships for the search-ordering scenario. -/
def rOld : GraphRelationship :=
  { id := "r1", subject := "User", predicate := "WORKS_AT", object := "Acme",
    created_at := 0 }

def rNew : GraphRelationship :=
  { id := "r2", subject := "User", predicate := "LIVES_IN", object := "Paris",
    created_at := 5 }

def storeC8 : InMemoryGraphStore := { entities := [], relationships := [rOld, rNew] }

def storeC8single : InMemoryGraphStore := { entities := [], relationships := [rOld] }

/-- Two persist calls for the same entity with different attribute sets. -/
def entFirst : EntityDict := { name := "Giana", type := some "Person",
                               attributes := [("age", .nat 30)] }

def entSecond : EntityDict := { name := "Giana", type := some "Person",
                                attributes := [("role", .str "engineer")] }

/-- A labeled-property graph holding one live `User WORKS_AT Acme` edge. -/
def graphC2 : FalkorGraph :=
  { nodes := []
    edges := [{ rel_id := 0, subject := "User", predicate := "WORKS_AT",
                object := "Acme" }]
    nextEdgeId := 1 }

/-- The relationships the observer appended to the graph store during one
run (everything past the store's original length); `[]` when the run
raised. -/
def addedRelationships (store : InMemoryGraphStore) :
    Except Unit TurnResult → List GraphRelationship
  | .error _ => []
  | .ok res => res.store.relationships.drop store.relationships.length

/-- The merged relationship list a run returned; `[]` when the run
raised. -/
def turnRelationships : Except Unit TurnResult → List RelDict
  | .error _ => []
  | .ok res => res.output.relationships

/-- Source-dominance scenario (spec §8, scenario 3): the user states one
fact, the assistant infers a colliding one plus an unrelated one. -/
def relUserWorks : RelDict :=
  { subject := "User", predicate := "WORKS_ON", object := "basketcall" }

def relAsstWorks : RelDict :=
  { subject := "User", predicate := "WORKS_ON", object := "notes-app" }

def relAsstUses : RelDict :=
  { subject := "User", predicate := "USES", object := "vim" }

def oracleC4 : GenOracle :=
  { utilityAttempts := fun _ => .ok "STORE"
    extractUserAttempts := fun _ => .ok "U"
    extractAssistantAttempts := fun _ => .ok "A"
    summaryAttempts := fun _ => .ok "User works on basketcall."
    queriesAttempts := fun _ => .ok "[]"
    contradictionResponses := fun _ => .ok "C" }

def parsersC4 : Parsers :=
  { extraction := fun s =>
      if s = "U" then .data { relationships := [relUserWorks] }
      else if s = "A" then
        .data { relationships := [relAsstWorks, relAsstUses] }
      else .data {}
    queriesOf := fun _ => none
    contradictions := fun _ => .items []
    embed := fun _ => [] }

/-- The assistant-inferred record the C4 scenario run appends (the store
starts empty, the contradiction check makes no generator calls, and the
two merged relationships are appended at clock ticks 2 and 3). -/
def recAddedC4 : GraphRelationship :=
  { id := "uuid-3", subject := "User", predicate := "USES", object := "vim",
    created_at := 3, source := "assistant_inferred", confidence := 0.3 }

/-- The user-stated relationship dict as it appears in the merged output of
the C4 scenario run. -/
def recUserC4 : RelDict :=
  { subject := "User", predicate := "WORKS_ON", object := "basketcall",
    source := some "user_stated", confidence := some 1 }

/-- The surviving assistant-inferred dict as it appears in the merged
output of the C4 scenario run. -/
def recAsstTaggedC4 : RelDict :=
  { subject := "User", predicate := "USES", object := "vim",
    source := some "assistant_inferred", confidence := some (0.3 : ℚ) }

/-- The user-stated record the C4 scenario run appends at clock tick 2. -/
def recAddedUserC4 : GraphRelationship :=
  { id := "uuid-2", subject := "User", predicate := "WORKS_ON",
    object := "basketcall", created_at := 2, source := "user_stated",
    confidence := 1 }

/-! ## Helper lemmas about association-list dictionaries -/

theorem lookup_cons {α : Type} (k a : String) (v : α) (xs : List (String × α)) :
    ((a, v) :: xs).lookup k = if k = a then some v else xs.lookup k := by
  by_cases h : k = a
  · subst h; simp [List.lookup]
  · have hb : (k == a) = false := beq_eq_false_iff_ne.mpr h
    simp [List.lookup, hb, h]

theorem lookup_map_update_self {α : Type} (k : String) (v : α) :
    ∀ xs : List (String × α), (xs.lookup k).isSome →
      (xs.map (fun p => if p.1 = k then (k, v) else p)).lookup k = some v := by
  intro xs
  induction xs with
  | nil => intro h; simp at h
  | cons p ps ih =>
    obtain ⟨a, b⟩ := p
    intro hs
    by_cases ha : a = k
    · simp only [List.map_cons, if_pos ha, lookup_cons]
      simp
    · rw [lookup_cons, if_neg (fun h => ha h.symm)] at hs
      simp only [List.map_cons]
      rw [if_neg ha, lookup_cons, if_neg (fun h => ha h.symm)]
      exact ih hs

theorem lookup_map_update_ne {α : Type} (k k' : String) (v : α) (h : k' ≠ k) :
    ∀ xs : List (String × α),
      (xs.map (fun p => if p.1 = k then (k, v) else p)).lookup k' = xs.lookup k' := by
  intro xs
  induction xs with
  | nil => simp
  | cons p ps ih =>
    obtain ⟨a, b⟩ := p
    by_cases ha : a = k
    · simp only [List.map_cons, if_pos ha]
      rw [lookup_cons, if_neg h, lookup_cons, if_neg (ha ▸ h), ih]
    · simp only [List.map_cons, if_neg ha]
      rw [lookup_cons, lookup_cons]
      by_cases hk' : k' = a
      · rw [if_pos hk', if_pos hk']
      · rw [if_neg hk', if_neg hk', ih]

theorem lookup_append_single {α : Type} (k : String) (v : α) :
    ∀ xs : List (String × α), xs.lookup k = none →
      (xs ++ [(k, v)]).lookup k = some v := by
  intro xs
  induction xs with
  | nil => intro _; simp [lookup_cons]
  | cons p ps ih =>
    obtain ⟨a, b⟩ := p
    intro hs
    rw [lookup_cons] at hs
    by_cases ha : k = a
    · rw [if_pos ha] at hs; exact absurd hs (by simp)
    · rw [if_neg ha] at hs
      rw [List.cons_append, lookup_cons, if_neg ha]
      exact ih hs

theorem lookup_append_single_ne {α : Type} (k k' : String) (v : α) (h : k' ≠ k) :
    ∀ xs : List (String × α), (xs ++ [(k, v)]).lookup k' = xs.lookup k' := by
  intro xs
  induction xs with
  | nil => simp [lookup_cons, if_neg h]
  | cons p ps ih =>
    obtain ⟨a, b⟩ := p
    rw [List.cons_append, lookup_cons, lookup_cons]
    by_cases hk' : k' = a
    · rw [if_pos hk', if_pos hk']
    · rw [if_neg hk', if_neg hk', ih]

theorem lookup_setAssoc_self {α : Type} (xs : List (String × α)) (k : String)
    (v : α) : (setAssoc xs k v).lookup k = some v := by
  unfold setAssoc
  split
  · exact lookup_map_update_self k v xs (by assumption)
  · rename_i hs
    exact lookup_append_single k v xs (Option.not_isSome_iff_eq_none.mp hs)

theorem lookup_setAssoc_ne {α : Type} (xs : List (String × α)) (k k' : String)
    (v : α) (h : k' ≠ k) : (setAssoc xs k v).lookup k' = xs.lookup k' := by
  unfold setAssoc
  split
  · exact lookup_map_update_ne k k' v h xs
  · exact lookup_append_single_ne k k' v h xs

theorem lookup_eq_none_of_not_mem_keys {α : Type} (xs : List (String × α))
    (k : String) (h : k ∉ xs.map Prod.fst) : xs.lookup k = none := by
  induction xs with
  | nil => simp
  | cons p ps ih =>
    simp only [List.map_cons, List.mem_cons, not_or] at h
    rw [show p = (p.1, p.2) from rfl, lookup_cons, if_neg h.1]
    exact ih h.2

theorem lookup_mergeDict (old new : List (String × MetaVal)) (k : String)
    (hN : (new.map Prod.fst).Nodup) :
    (mergeDict old new).lookup k =
      match new.lookup k with
      | some v => some v
      | none => old.lookup k := by
  induction new generalizing old with
  | nil => simp [mergeDict]
  | cons p ps ih =>
    simp only [List.map_cons, List.nodup_cons] at hN
    have step : mergeDict old (p :: ps) = mergeDict (setKey old p.1 p.2) ps := by
      simp [mergeDict]
    rw [step, ih _ hN.2]
    by_cases hk : k = p.1
    · have h1 : ps.lookup k = none := by
        apply lookup_eq_none_of_not_mem_keys
        rw [hk]; exact hN.1
      rw [h1, show p = (p.1, p.2) from rfl, lookup_cons, if_pos hk]
      simp only [setKey]
      rw [hk, lookup_setAssoc_self]
    · rw [show p = (p.1, p.2) from rfl, lookup_cons, if_neg hk]
      cases hps : ps.lookup k with
      | some v => simp
      | none => simp [setKey, lookup_setAssoc_ne old p.1 k p.2 hk]

/-! ## Claim C5: utility-grade-to-score mapping -/

/-- Claim C5, counterexample: the claimed table (`STORE = 0.3`, `LOW = 0.6`)
is false on the code — `_utility_to_score` maps `STORE` to 0.6 and `LOW`
to 0.3. -/
theorem C5_counterexample :
    utilityToScore .STORE ≠ (0.3 : ℚ) ∧ utilityToScore .LOW ≠ (0.6 : ℚ) := by
  constructor <;> · simp only [utilityToScore]; norm_num

/-- Claim C5 (amended): the mapping used when persisting a MemoryChunk
assigns DISCARD = 0.0, STORE = 0.6, LOW = 0.3, MEDIUM = 0.6,
IMPORTANT = 1.0, HIGH = 1.0. -/
theorem C5_utility_score_mapping :
    utilityToScore .DISCARD = 0 ∧ utilityToScore .STORE = (0.6 : ℚ) ∧
    utilityToScore .LOW = (0.3 : ℚ) ∧ utilityToScore .MEDIUM = (0.6 : ℚ) ∧
    utilityToScore .IMPORTANT = 1 ∧ utilityToScore .HIGH = 1 :=
  ⟨rfl, rfl, rfl, rfl, rfl, rfl⟩

/-! ## Claim C10: mark_contradiction on an unknown id -/

theorem markGo_of_no_match (now : Nat) (existingId sup : String) :
    ∀ l : List GraphRelationship, (∀ r ∈ l, r.id ≠ existingId) →
      markGo now existingId sup l = l := by
  intro l
  induction l with
  | nil => intro _; rfl
  | cons r rest ih =>
    intro h
    unfold markGo
    rw [if_neg (h r (List.mem_cons_self r rest)), ih]
    intro x hx
    exact h x (List.mem_cons_of_mem r hx)

/-- Claim C10: when no stored relationship has the given id, the in-memory
`mark_contradiction` is a no-op — it raises nothing and leaves the store
completely unchanged. -/
theorem C10_mark_contradiction_unknown_id
    (store : InMemoryGraphStore) (now : Nat) (existingId sup : String)
    (h : ∀ r ∈ store.relationships, r.id ≠ existingId) :
    markContradiction store now existingId sup = store := by
  unfold markContradiction
  rw [markGo_of_no_match now existingId sup store.relationships h]

/-- Claim C10, witness: a store holding one relationship with id "r1",
asked to mark id "missing". -/
theorem C10_witness :
    markContradiction storeC8single 9 "missing" "User LIVES_IN Paris" =
      storeC8single :=
  C10_mark_contradiction_unknown_id storeC8single 9 "missing"
    "User LIVES_IN Paris" (by decide)

/-! ## Claim C3: DISCARD short-circuits the pipeline -/

/-- Claim C3: whenever the utility call succeeds and the parsed grade is
DISCARD, `process_turn` returns the empty `ObserverOutput` immediately —
the graph store is unchanged, no chunk is persisted, and exactly the one
utility-grading generator call was made. -/
theorem C3_discard_short_circuit (P : Parsers) (oracle : GenOracle)
    (vectorTable : Bool)
    (userMessage assistantResponse conversationId : String) (turnIndex : Nat)
    (store : InMemoryGraphStore) (clock : Nat) (resp : String)
    (h1 : retryOnTimeout oracle.utilityAttempts = .ok resp)
    (h2 : gradeOfString resp = .DISCARD) :
    processTurn P oracle vectorTable userMessage assistantResponse
        conversationId turnIndex store clock =
      .ok { output := { utility_grade := .DISCARD, summary := none,
                        entities := [], relationships := [],
                        contradictions := [], retrieval_queries := [] }
            store := store, clock := clock, genCalls := 1,
            persistedChunk := none } := by
  unfold processTurn
  rw [h1]
  simp [h2]

/-- Claim C3, witness: a concrete turn graded DISCARD on a store that
already holds a relationship, with a vector table configured. -/
theorem C3_witness :
    processTurn emptyParsers discardOracle true "thanks" "You are welcome!"
        "conv-1" 4 storeC8single 17 =
      .ok { output := { utility_grade := .DISCARD, summary := none,
                        entities := [], relationships := [],
                        contradictions := [], retrieval_queries := [] }
            store := storeC8single, clock := 17, genCalls := 1,
            persistedChunk := none } :=
  C3_discard_short_circuit emptyParsers discardOracle true "thanks"
    "You are welcome!" "conv-1" 4 storeC8single 17 "DISCARD" rfl (by decide)

/-! ## Claim C6: exception behaviour of process_turn -/

/-- Claim C6, counterexample: `process_turn` raises to its caller on four
concrete behaviours the claim says it must survive — a generator timing
out on every retry attempt; a valid-JSON non-object extraction response
(`AttributeError` at observer.py:120); a parsed high-confidence
contradiction item missing its `existing_id`/`existing_statement`/`reason`
keys (`KeyError` at observer.py:232-235); and an embedder output whose
length is not `EMBED_DIM` with a vector table configured (`ValueError` in
`persist_chunks`, vector_store.py:63-64). -/
theorem C6_counterexample :
    processTurn emptyParsers allTimeoutOracle false "I moved to Paris"
      "Nice!" "conv-1" 0 { } 0 = .error () ∧
    processTurn badShapeParsers junkOracle false "I moved to Paris" "Nice!"
      "conv-1" 0 { } 0 = .error () ∧
    processTurn missingKeyParsers oracleC1 false "I just started at NewCorp"
      "Congrats!" "conv-1" 3 storeC1 10 = .error () ∧
    processTurn embedMismatchParsers junkOracle true "I like tea" "Noted"
      "conv-2" 1 { } 0 = .error () :=
  ⟨rfl, rfl, rfl, rfl⟩

theorem queryStore_subset (st : InMemoryGraphStore) (s : String)
    (p : Option String) : ∀ x ∈ queryStore st s p, x ∈ st.relationships := by
  intro x hx
  exact (List.mem_filter.mp hx).1

theorem dedupByIdGo_subset :
    ∀ (l acc : List GraphRelationship) (seen : List String)
      (x : GraphRelationship), x ∈ dedupByIdGo l acc seen → x ∈ acc ∨ x ∈ l := by
  intro l
  induction l with
  | nil => intro acc seen x hx; exact Or.inl hx
  | cons r rest ih =>
    intro acc seen x hx
    unfold dedupByIdGo at hx
    by_cases hr : r.id ∈ seen
    · rw [if_pos hr] at hx
      rcases ih acc seen x hx with h | h
      · exact Or.inl h
      · exact Or.inr (List.mem_cons_of_mem r h)
    · rw [if_neg hr] at hx
      rcases ih (acc ++ [r]) (r.id :: seen) x hx with h | h
      · rcases List.mem_append.mp h with h | h
        · exact Or.inl h
        · exact Or.inr (by rw [List.mem_singleton.mp h]
                           exact List.mem_cons_self r rest)
      · exact Or.inr (List.mem_cons_of_mem r h)

theorem getRelatedFacts_subset (st : InMemoryGraphStore) (s o : String) :
    ∀ x ∈ getRelatedFacts st s o, x ∈ st.relationships := by
  intro x hx
  unfold getRelatedFacts at hx
  by_cases ho : o = ""
  · rw [if_pos ho] at hx
    exact queryStore_subset st s none x hx
  · rw [if_neg ho] at hx
    rcases dedupByIdGo_subset _ [] [] x hx with h | h
    · exact absurd h (List.not_mem_nil x)
    · rcases List.mem_append.mp h with h | h
      · exact queryStore_subset st s none x h
      · exact queryStore_subset st o none x h

theorem simpleCheck_resolvable (newRel : RelDict)
    (existing : List GraphRelationship)
    (hst : ∀ r ∈ existing, 2 ≤ (pySplit (statementOf r)).length) :
    ∀ item ∈ simpleContradictionCheck newRel existing, itemResolvable item := by
  intro item hitem
  obtain ⟨er, her, heq⟩ := List.mem_filterMap.mp hitem
  by_cases hc : er.subject = newRel.subject ∧ er.predicate = newRel.predicate ∧
      er.object ≠ newRel.object
  · rw [if_pos hc] at heq
    have h2 := Option.some.inj heq
    intro _
    rw [← h2]
    exact ⟨er.id, statementOf er, "Same predicate with different object",
      rfl, rfl, rfl, hst er her⟩
  · rw [if_neg hc] at heq
    exact absurd heq (by simp)

theorem markGo_spo (now : Nat) (existingId sup : String) :
    ∀ (l : List GraphRelationship) (r2 : GraphRelationship),
      r2 ∈ markGo now existingId sup l →
      ∃ r ∈ l, r2.subject = r.subject ∧ r2.predicate = r.predicate ∧
        r2.object = r.object := by
  intro l
  induction l with
  | nil => intro r2 h; exact absurd h (List.not_mem_nil r2)
  | cons r rest ih =>
    intro r2 h
    unfold markGo at h
    by_cases hr : r.id = existingId
    · rw [if_pos hr] at h
      rcases List.mem_cons.mp h with h | h
      · exact ⟨r, List.mem_cons_self r rest, by rw [h]; exact ⟨rfl, rfl, rfl⟩⟩
      · exact ⟨r2, List.mem_cons_of_mem r h, rfl, rfl, rfl⟩
    · rw [if_neg hr] at h
      rcases List.mem_cons.mp h with h | h
      · exact ⟨r, List.mem_cons_self r rest, by rw [h]; exact ⟨rfl, rfl, rfl⟩⟩
      · obtain ⟨r0, hr0, hs⟩ := ih r2 h
        exact ⟨r0, List.mem_cons_of_mem r hr0, hs⟩

theorem markContradiction_spo (st : InMemoryGraphStore) (now : Nat)
    (existingId sup : String) :
    ∀ r2 ∈ (markContradiction st now existingId sup).relationships,
      ∃ r ∈ st.relationships, r2.subject = r.subject ∧
        r2.predicate = r.predicate ∧ r2.object = r.object :=
  markGo_spo now existingId sup st.relationships

theorem applyHigh_ok (rel : RelDict) :
    ∀ (items : List ContradictionItem) (st : InMemoryGraphStore) (c : Nat),
      (∀ item ∈ items, itemResolvable item) →
      ∃ recs st2 c2,
        applyHighContradictions rel items st c = .ok (recs, st2, c2) ∧
        (∀ rec ∈ recs, 2 ≤ (pySplit rec.existing_statement).length) ∧
        (∀ r2 ∈ st2.relationships, ∃ r ∈ st.relationships,
          r2.subject = r.subject ∧ r2.predicate = r.predicate ∧
          r2.object = r.object) := by
  intro items
  induction items with
  | nil =>
    intro st c _
    exact ⟨[], st, c, rfl, by simp, fun r2 h2 => ⟨r2, h2, rfl, rfl, rfl⟩⟩
  | cons item rest ih =>
    intro st c hres
    unfold applyHighContradictions
    by_cases hc : item.confidence = some "high"
    · rw [if_pos hc]
      obtain ⟨eid, stmt, rsn, h1, h2, h3, h4⟩ :=
        hres item (List.mem_cons_self _ _) hc
      simp only [h1, h2, h3]
      obtain ⟨recs, st2, c2, hrec, htok, hspo⟩ :=
        ih (markContradiction st c eid (newStatementOf rel)) (c + 1)
          (fun i hi => hres i (List.mem_cons_of_mem _ hi))
      simp only [hrec]
      refine ⟨_, st2, c2, rfl, ?_, ?_⟩
      · intro rec hmem
        rcases List.mem_cons.mp hmem with hmem | hmem
        · rw [hmem]
          exact h4
        · exact htok rec hmem
      · intro r2 h2m
        obtain ⟨r1, hr1, hs1⟩ := hspo r2 h2m
        obtain ⟨r0, hr0, hs0⟩ :=
          markContradiction_spo st c eid (newStatementOf rel) r1 hr1
        exact ⟨r0, hr0, hs1.1.trans hs0.1, hs1.2.1.trans hs0.2.1,
          hs1.2.2.trans hs0.2.2⟩
    · rw [if_neg hc]
      exact ih st c (fun i hi => hres i (List.mem_cons_of_mem _ hi))

theorem checkContradictions_ok_strong (P : Parsers) (oracle : GenOracle)
    (hct : ∀ n, oracle.contradictionResponses n ≠ .timeout)
    (hcb : ∀ s, P.contradictions s ≠ .badShape)
    (hit : ∀ s l, P.contradictions s = .items l →
      ∀ item ∈ l, itemResolvable item) :
    ∀ (rels : List RelDict) (st : InMemoryGraphStore) (c idx : Nat),
      (∀ r ∈ st.relationships, 2 ≤ (pySplit (statementOf r)).length) →
      ∃ recs st2 c2 i2,
        checkContradictions P oracle rels st c idx = .ok (recs, st2, c2, i2) ∧
        (∀ rec ∈ recs, 2 ≤ (pySplit rec.existing_statement).length) := by
  intro rels
  induction rels with
  | nil => intro st c idx hInv; exact ⟨[], st, c, idx, rfl, by simp⟩
  | cons rel rest ih =>
    intro st c idx hInv
    unfold checkContradictions
    by_cases he : (getRelatedFacts st rel.subject rel.object).isEmpty = true
    · rw [if_pos he]
      exact ih st c idx hInv
    · rw [if_neg he]
      cases hcr : oracle.contradictionResponses idx with
      | timeout => exact absurd hcr (hct idx)
      | ok resp =>
        simp only [hcr]
        have step : ∀ items : List ContradictionItem,
            contraItemsOf P rel (getRelatedFacts st rel.subject rel.object)
              resp = .ok items →
            (∀ item ∈ items, itemResolvable item) →
            ∃ recs st2 c2 i2,
              (match contraItemsOf P rel
                  (getRelatedFacts st rel.subject rel.object) resp with
                | .error e => Except.error e
                | .ok items =>
                  match applyHighContradictions rel items st c with
                  | .error e => Except.error e
                  | .ok (recs1, st1, c1) =>
                    match checkContradictions P oracle rest st1 c1 (idx + 1) with
                    | .ok (recs, st, c, i) => Except.ok (recs1 ++ recs, st, c, i)
                    | .error e => Except.error e) =
                Except.ok (recs, st2, c2, i2) ∧
              ∀ rec ∈ recs, 2 ≤ (pySplit rec.existing_statement).length := by
          intro items hco hresolv
          obtain ⟨recs1, st1, c1, hah, htok, hspo⟩ :=
            applyHigh_ok rel items st c hresolv
          have hInv1 : ∀ r ∈ st1.relationships,
              2 ≤ (pySplit (statementOf r)).length := by
            intro r hr
            obtain ⟨r0, hr0, hs⟩ := hspo r hr
            have hsame : statementOf r = statementOf r0 := by
              unfold statementOf
              rw [hs.1, hs.2.1, hs.2.2]
            rw [hsame]
            exact hInv r0 hr0
          obtain ⟨recs, st2, c2, i2, hrec, htok2⟩ := ih st1 c1 (idx + 1) hInv1
          refine ⟨recs1 ++ recs, st2, c2, i2, ?_, ?_⟩
          · simp only [hco, hah, hrec]
          · intro rec hr
            rcases List.mem_append.mp hr with h | h
            · exact htok rec h
            · exact htok2 rec h
        cases hco : P.contradictions resp with
        | badShape => exact absurd hco (hcb resp)
        | parseRaised =>
          exact step _ (by simp only [contraItemsOf, hco])
            (simpleCheck_resolvable rel _ (fun r hr =>
              hInv r (getRelatedFacts_subset st rel.subject rel.object r hr)))
        | items l =>
          exact step l (by simp only [contraItemsOf, hco]) (hit resp l hco)

theorem persistContradictions_ok :
    ∀ (contras : List ContradictionRecord) (acc : InMemoryGraphStore × Nat),
      (∀ rec ∈ contras, 2 ≤ (pySplit rec.existing_statement).length) →
      ∃ acc2, persistContradictions contras acc = .ok acc2 := by
  intro contras
  induction contras with
  | nil => intro acc _; exact ⟨acc, rfl⟩
  | cons contra rest ih =>
    intro acc htok
    unfold persistContradictions
    have h2 : 2 ≤ (pySplit contra.existing_statement).length :=
      htok contra (List.mem_cons_self _ _)
    simp only [supersededCopyDict, if_pos h2]
    exact ih _ (fun rec hr => htok rec (List.mem_cons_of_mem _ hr))

theorem persistToGraphStore_ok (contras : List ContradictionRecord)
    (st : InMemoryGraphStore) (c : Nat) (ents : List EntityDict)
    (rels : List RelDict)
    (htok : ∀ rec ∈ contras, 2 ≤ (pySplit rec.existing_statement).length) :
    ∃ out, persistToGraphStore st c ents rels contras = .ok out :=
  persistContradictions_ok contras _ htok

/-- Claim C6 (amended): `process_turn` never raises provided that (1)
every generator call returns a response within its 3 retry attempts and
the un-retried contradiction-detection call does not time out; (2) every
extraction and contradiction-detection response either fails to parse
(caught: the turn degrades to empty structures / the simple fallback) or
parses to a well-shaped JSON object — a valid-JSON non-object or
ill-shaped value raises an uncaught AttributeError/KeyError/TypeError at
observer.py:120/136/228-230/297; (3) every parsed high-confidence
contradiction item carries `existing_id`, `existing_statement` and
`reason` with an existing statement of at least two whitespace-separated
tokens, and every stored relationship's statement also splits into at
least two tokens — else KeyError at observer.py:232-235 or IndexError in
`_persist_to_graph_store`; and (4) no vector table is configured or the
embedder output has length `EMBED_DIM` — else `persist_chunks` raises
ValueError.  Within these conditions arbitrarily malformed output
degrades to a partially-empty ObserverOutput; outside them the exception
propagates to the caller. -/
theorem C6_no_raise_within_modelled_conditions (P : Parsers)
    (oracle : GenOracle) (vectorTable : Bool)
    (userMessage assistantResponse conversationId : String) (turnIndex : Nat)
    (store : InMemoryGraphStore) (clock : Nat) (u e1 e2 s q : String)
    (hu : retryOnTimeout oracle.utilityAttempts = .ok u)
    (h1 : retryOnTimeout oracle.extractUserAttempts = .ok e1)
    (h2 : retryOnTimeout oracle.extractAssistantAttempts = .ok e2)
    (h3 : retryOnTimeout oracle.summaryAttempts = .ok s)
    (h4 : retryOnTimeout oracle.queriesAttempts = .ok q)
    (hct : ∀ n, oracle.contradictionResponses n ≠ .timeout)
    (hux : P.extraction e1 ≠ .badShape)
    (hax : P.extraction e2 ≠ .badShape)
    (hcb : ∀ r, P.contradictions r ≠ .badShape)
    (hit : ∀ r l, P.contradictions r = .items l →
      ∀ item ∈ l, itemResolvable item)
    (hst : ∀ r ∈ store.relationships, 2 ≤ (pySplit (statementOf r)).length)
    (hemb : vectorTable = false ∨
      (P.embed ("USER: " ++ userMessage ++ "\nASSISTANT: " ++
        assistantResponse)).length = EMBED_DIM) :
    ∃ res, processTurn P oracle vectorTable userMessage assistantResponse
      conversationId turnIndex store clock = .ok res := by
  unfold processTurn
  simp only [hu]
  by_cases hg : gradeOfString u = .DISCARD
  · rw [if_pos hg]
    exact ⟨_, rfl⟩
  · rw [if_neg hg]
    simp only [h1, h2, h3, h4]
    obtain ⟨ud, hud⟩ : ∃ ud, extractionResult (P.extraction e1) = .ok ud := by
      cases hx : P.extraction e1 with
      | badShape => exact absurd hx hux
      | parseRaised => exact ⟨_, rfl⟩
      | data d => exact ⟨_, rfl⟩
    obtain ⟨ad, had⟩ : ∃ ad, extractionResult (P.extraction e2) = .ok ad := by
      cases hx : P.extraction e2 with
      | badShape => exact absurd hx hax
      | parseRaised => exact ⟨_, rfl⟩
      | data d => exact ⟨_, rfl⟩
    simp only [hud, had]
    obtain ⟨recs, st2, c2, i2, hrec, htok⟩ :=
      checkContradictions_ok_strong P oracle hct hcb hit
        (mergeTurnRelationships ud.relationships ad.relationships) store
        clock 0 hst
    simp only [hrec]
    obtain ⟨out, hout⟩ := persistToGraphStore_ok recs st2 (c2 + 1)
      (ud.entities ++ ad.entities)
      (mergeTurnRelationships ud.relationships ad.relationships) htok
    simp only [hout]
    have hcond : ¬(vectorTable = true ∧
        (P.embed ("USER: " ++ userMessage ++ "\nASSISTANT: " ++
          assistantResponse)).length ≠ EMBED_DIM) := by
      rintro ⟨hvt, hlen⟩
      rcases hemb with hv | hl
      · rw [hv] at hvt
        exact Bool.noConfusion hvt
      · exact hlen hl
    rw [if_neg hcond]
    exact ⟨_, rfl⟩

/-- Claim C6, witness: a generator that always responds with junk that
fails to parse, over a store whose one statement splits into three
tokens — the pipeline completes without raising. -/
theorem C6_witness :
    ∃ res, processTurn emptyParsers junkOracle false "I like tea" "Noted"
      "conv-2" 1 storeC8single 0 = .ok res :=
  C6_no_raise_within_modelled_conditions emptyParsers junkOracle false
    "I like tea" "Noted" "conv-2" 1 storeC8single 0 "malformed" "not json"
    "not json" "whatever" "not a list" rfl rfl rfl rfl rfl
    (by intro n h; simp [junkOracle] at h)
    (by intro h; simp [emptyParsers] at h)
    (by intro h; simp [emptyParsers] at h)
    (by intro r h; simp [emptyParsers] at h)
    (by intro r l h; simp [emptyParsers] at h)
    (by decide)
    (Or.inl rfl)

/-! ## Claim C1: at most one live relationship per (subject, predicate) -/

/-- Claim C1 (code bug): starting from a store whose only relationship is
`User WORKS_AT Acme` (live), a turn extracting `User WORKS_AT NewCorp`
resolves the contradiction — yet after persistence the pair
(User, WORKS_AT) has TWO live relationships (the new fact and the
"superseded" copy of the old statement that `_persist_to_graph_store`
re-persists with `superseded_by = null`), violating invariant (P3). -/
theorem C1_secondary_persist_violates_invariant :
    (processTurn parsersC1 oracleC1 false "I just started at NewCorp"
        "Congrats!" "conv-1" 3 storeC1 10).map
      (fun res => (liveCount res.store "User" "WORKS_AT",
        res.store.relationships.length)) = .ok (2, 3) := rfl

/-! ## Claim C2: mark_contradiction semantics across the two back-ends -/

theorem map_update_of_no_match (now : Nat) (existingId sup : String) :
    ∀ l : List GraphRelationship, (∀ r ∈ l, r.id ≠ existingId) →
      l.map (fun r => if r.id = existingId then contradictionUpdate now sup r
        else r) = l := by
  intro l
  induction l with
  | nil => intro _; rfl
  | cons r rest ih =>
    intro h
    simp only [List.map_cons,
      if_neg (h r (List.mem_cons_self r rest)),
      ih (fun x hx => h x (List.mem_cons_of_mem r hx))]

theorem markGo_of_unique_match (now : Nat) (existingId sup : String) :
    ∀ (l : List GraphRelationship) (rel : GraphRelationship),
      l.filter (fun r => r.id = existingId) = [rel] →
      markGo now existingId sup l =
        l.map (fun r => if r.id = existingId then contradictionUpdate now sup r
          else r) := by
  intro l
  induction l with
  | nil => intro rel h; exact absurd h (by simp)
  | cons r rest ih =>
    intro rel h
    by_cases hr : r.id = existingId
    · rw [List.filter_cons_of_pos (by simpa using hr)] at h
      have h2 : rest.filter (fun r => r.id = existingId) = [] :=
        (List.cons.injEq _ _ _ _ ▸ h).2
      have hnone : ∀ x ∈ rest, x.id ≠ existingId := by
        intro x hx
        have := List.filter_eq_nil_iff.mp h2 x hx
        simpa using this
      unfold markGo
      rw [if_pos hr]
      simp only [List.map_cons, if_pos hr,
        map_update_of_no_match now existingId sup rest hnone]
    · rw [List.filter_cons_of_neg (by simpa using hr)] at h
      unfold markGo
      rw [if_neg hr]
      simp only [List.map_cons, if_neg hr, ih rel h]

theorem falkor_update_preserves (relId : Nat)
    (upd : FalkorEdge → FalkorEdge) {β : Type} (f : FalkorEdge → β)
    (hf : ∀ e, f (upd e) = f e) :
    ∀ l : List FalkorEdge,
      (l.map (fun e => if e.rel_id = relId then upd e else e)).map f =
        l.map f := by
  intro l
  induction l with
  | nil => rfl
  | cons e rest ih =>
    by_cases he : e.rel_id = relId
    · simp only [List.map_cons, if_pos he, hf, ih]
    · simp only [List.map_cons, if_neg he, ih]

/-- Claim C2 (amended): the in-memory `mark_contradiction` rewrites the
unique matching record — setting `status = completed`,
`superseded_by = s`, `metadata.superseded_at = now` and
`metadata.still_valid = false` — and leaves every other record unchanged;
the labeled-property-graph back-end sets `still_valid = false`,
`superseded_by = s` and `superseded_at = now` on the matching edge but
leaves every edge's `status` (and its `metadata` property) unchanged.
The two back-ends therefore do not have identical semantics: they differ
on `status` and on where the supersession time is recorded. -/
theorem C2_mark_contradiction_two_backends :
    (∀ (store : InMemoryGraphStore) (now : Nat) (existingId sup : String)
        (rel : GraphRelationship),
      store.relationships.filter (fun r => r.id = existingId) = [rel] →
      (markContradiction store now existingId sup).relationships =
        store.relationships.map (fun r =>
          if r.id = existingId then contradictionUpdate now sup r else r) ∧
      (contradictionUpdate now sup rel).status = some "completed" ∧
      (contradictionUpdate now sup rel).superseded_by = some sup ∧
      (contradictionUpdate now sup rel).metadata.lookup "superseded_at" =
        some (.nat now) ∧
      (contradictionUpdate now sup rel).metadata.lookup "still_valid" =
        some (.bool false)) ∧
    (∀ (g : FalkorGraph) (now relId : Nat) (sup : String),
      (falkorMarkContradiction now g relId sup).edges.map FalkorEdge.status =
        g.edges.map FalkorEdge.status ∧
      (falkorMarkContradiction now g relId sup).edges.map FalkorEdge.metadata =
        g.edges.map FalkorEdge.metadata ∧
      ∀ e ∈ g.edges, e.rel_id = relId →
        ∃ e2 ∈ (falkorMarkContradiction now g relId sup).edges,
          e2.still_valid = false ∧ e2.superseded_by = sup ∧
          e2.superseded_at = some now) := by
  constructor
  · intro store now existingId sup rel h
    refine ⟨markGo_of_unique_match now existingId sup store.relationships rel h,
      rfl, rfl, ?_, ?_⟩
    · exact lookup_setAssoc_self _ "superseded_at" (MetaVal.nat now)
    · rw [show (contradictionUpdate now sup rel).metadata =
        setAssoc (setAssoc rel.metadata "still_valid" (MetaVal.bool false))
          "superseded_at" (MetaVal.nat now) from rfl]
      rw [lookup_setAssoc_ne _ "superseded_at" "still_valid" _ (by decide)]
      exact lookup_setAssoc_self _ "still_valid" (MetaVal.bool false)
  · intro g now relId sup
    refine ⟨?_, ?_, ?_⟩
    · simp only [falkorMarkContradiction]
      exact falkor_update_preserves relId (falkorSupersede now sup)
        FalkorEdge.status (fun _ => rfl) g.edges
    · simp only [falkorMarkContradiction]
      exact falkor_update_preserves relId (falkorSupersede now sup)
        FalkorEdge.metadata (fun _ => rfl) g.edges
    · intro e he hid
      simp only [falkorMarkContradiction]
      refine ⟨(fun x => if x.rel_id = relId then falkorSupersede now sup x
          else x) e, List.mem_map_of_mem _ he, ?_⟩
      simp [falkorSupersede, hid]

/-- Claim C2, witness: the amended semantics at a one-relationship
in-memory store and a one-edge labeled-property graph. -/
theorem C2_witness :
    (markContradiction storeC8single 9 "r1" "User WORKS_AT NewCorp").relationships =
      storeC8single.relationships.map (fun r =>
        if r.id = "r1" then contradictionUpdate 9 "User WORKS_AT NewCorp" r
        else r) ∧
    (falkorMarkContradiction 7 graphC2 0 "User WORKS_AT NewCorp").edges.map
      FalkorEdge.status = graphC2.edges.map FalkorEdge.status :=
  ⟨(C2_mark_contradiction_two_backends.1 storeC8single 9 "r1"
      "User WORKS_AT NewCorp" rOld (by decide)).1,
    (C2_mark_contradiction_two_backends.2 graphC2 7 0 "User WORKS_AT NewCorp").1⟩

/-- Claim C2, counterexample: on the labeled-property-graph back-end,
marking the live `User WORKS_AT Acme` edge superseded leaves its `status`
at "null" — it is not set to `completed`, so the claimed "identical
semantics, sets status = completed" is false. -/
theorem C2_counterexample :
    (falkorMarkContradiction 7 graphC2 0 "User WORKS_AT NewCorp").edges.map
      (fun e => (e.superseded_by, e.status, e.still_valid)) =
      [("User WORKS_AT NewCorp", "null", false)] ∧
    ("null" : String) ≠ "completed" := by
  constructor
  · rfl
  · decide

/-! ## Claim C9: persist_entities upsert semantics -/

theorem persistEntities_single (now : Nat) (st : InMemoryGraphStore)
    (e : EntityDict) :
    persistEntities now st [e] =
      { st with
        entities := setEntity st.entities e.name (upsertEntry now (st.entities.lookup e.name) e) } :=
  rfl

/-- Claim C9 (amended): for the in-memory back-end, persisting the same
entity name twice merges the attribute maps with the newer values winning,
advances `last_mentioned`, and keeps `first_mentioned` from the first
insert.  The labeled-property-graph back-end instead replaces the stored
attributes wholesale with the second call's map and never sets
`first_mentioned` at all. -/
theorem C9_persist_entities_two_backends :
    (∀ (now1 now2 : Nat) (st : InMemoryGraphStore) (e1 e2 : EntityDict),
      st.entities.lookup e1.name = none → e2.name = e1.name →
      (e1.attributes.map Prod.fst).Nodup → (e2.attributes.map Prod.fst).Nodup →
      ∃ entry,
        (persistEntities now2 (persistEntities now1 st [e1]) [e2]).entities.lookup
          e1.name = some entry ∧
        entry.first_mentioned = now1 ∧ entry.last_mentioned = now2 ∧
        ∀ k, entry.attributes.lookup k =
          (match e2.attributes.lookup k with
           | some v => some v
           | none => e1.attributes.lookup k)) ∧
    (∀ (now1 now2 : Nat) (g : FalkorGraph) (e1 e2 : EntityDict),
      (∀ n ∈ g.nodes, n.name ≠ e1.name) → e2.name = e1.name →
      ∃ node ∈ (falkorPersistEntity now2 (falkorPersistEntity now1 g e1)
          e2).nodes,
        node.name = e1.name ∧ node.attributes = e2.attributes ∧
        node.first_mentioned = none ∧ node.last_mentioned = some now2) := by
  constructor
  · intro now1 now2 st e1 e2 h0 hname hN1 hN2
    rw [persistEntities_single, persistEntities_single]
    simp only [h0]
    have hl1 : (setEntity st.entities e1.name
        (upsertEntry now1 none e1)).lookup e2.name =
        some (upsertEntry now1 none e1) := by
      rw [hname]
      exact lookup_setAssoc_self _ _ _
    simp only [hl1]
    rw [← hname]
    refine ⟨_, lookup_setAssoc_self _ _ _, rfl, rfl, ?_⟩
    intro k
    show (mergeDict (mergeDict [] e1.attributes) e2.attributes).lookup k = _
    rw [lookup_mergeDict _ _ k hN2]
    cases h2 : e2.attributes.lookup k with
    | some v => simp
    | none =>
      simp only []
      rw [lookup_mergeDict _ _ k hN1]
      cases h1 : e1.attributes.lookup k <;> simp
  · intro now1 now2 g e1 e2 h hname
    have hno : ¬ ∃ n ∈ g.nodes, n.name = e1.name := by
      rintro ⟨n, hn, hn2⟩
      exact h n hn hn2
    have step1 : falkorPersistEntity now1 g e1 =
        { g with nodes := g.nodes ++ [falkorWrite now1 e1 { name := e1.name }] } := by
      unfold falkorPersistEntity
      rw [if_neg hno]
    rw [step1]
    have hyes : ∃ n ∈ g.nodes ++ [falkorWrite now1 e1 { name := e1.name }],
        n.name = e2.name := by
      refine ⟨_, List.mem_append_right _ (List.mem_singleton_self _), ?_⟩
      rw [hname]
      rfl
    unfold falkorPersistEntity
    rw [if_pos hyes]
    refine ⟨_, List.mem_map_of_mem _
      (List.mem_append_right _ (List.mem_singleton_self _)), ?_⟩
    simp [falkorWrite, hname]

/-- Claim C9, witness: persisting `Giana` with `{age}` then `{role}` on
both back-ends. -/
theorem C9_witness :
    (∃ entry, (persistEntities 1 (persistEntities 0 { } [entFirst])
        [entSecond]).entities.lookup entFirst.name = some entry ∧
      entry.first_mentioned = 0 ∧ entry.last_mentioned = 1 ∧
      ∀ k, entry.attributes.lookup k =
        (match entSecond.attributes.lookup k with
         | some v => some v
         | none => entFirst.attributes.lookup k)) ∧
    (∃ node ∈ (falkorPersistEntity 1 (falkorPersistEntity 0 { } entFirst)
        entSecond).nodes,
      node.name = entFirst.name ∧ node.attributes = entSecond.attributes ∧
      node.first_mentioned = none ∧ node.last_mentioned = some 1) :=
  ⟨C9_persist_entities_two_backends.1 0 1 { } entFirst entSecond (by decide)
      (by decide) (by decide) (by decide),
    C9_persist_entities_two_backends.2 0 1 { } entFirst entSecond
      (by intro n hn; simp at hn) (by decide)⟩

/-- Claim C9, counterexample: on the labeled-property-graph back-end the
second `persist_entities` call replaces the attribute map — the `age` key
from the first call is gone (the claimed merge would keep it at 30) and
`first_mentioned` was never set. -/
theorem C9_counterexample :
    (falkorPersistEntity 1 (falkorPersistEntity 0 { } entFirst)
        entSecond).nodes.map
      (fun n => (n.attributes.lookup "age", n.first_mentioned)) =
      [(none, none)] ∧
    (mergeDict entFirst.attributes entSecond.attributes).lookup "age" =
      some (MetaVal.nat 30) := by
  constructor
  · rfl
  · rfl

/-! ## Claim C7: the Context Assembler vector leg -/

/-- Claim C7 (amended): every hit returned by the vector store is mapped to
a `RetrievedContext` with `source = vector` whose `relevance_score` is the
hit's stored `utility_score` (default 0.5) — not the combined score the
store computed. -/
theorem C7_vector_leg_mapping (cands : List VectorHit) (topK now : Nat) :
    ∀ rc ∈ assemblerVectorSearch cands topK now,
      rc.source = "vector" ∧
      ∃ pr ∈ vectorSearch cands topK,
        rc.content = pr.1.content ∧
        rc.relevance_score = pr.1.utility_score.getD (0.5 : ℚ) ∧
        rc.final_score = rc.relevance_score ∧
        rc.temporal_score = 1 := by
  intro rc hrc
  unfold assemblerVectorSearch at hrc
  obtain ⟨pr, hpr, rfl⟩ := List.mem_map.mp hrc
  exact ⟨rfl, pr, hpr, rfl, rfl, rfl, rfl⟩

/-- Claim C7, witness: the single-row store. -/
theorem C7_witness :
    rcC7.source = "vector" ∧
    ∃ pr ∈ vectorSearch candsC7 10,
      rcC7.content = pr.1.content ∧
      rcC7.relevance_score = pr.1.utility_score.getD (0.5 : ℚ) ∧
      rcC7.final_score = rcC7.relevance_score ∧
      rcC7.temporal_score = 1 :=
  C7_vector_leg_mapping candsC7 10 0 rcC7
    (by rw [show assemblerVectorSearch candsC7 10 0 = [rcC7] from rfl]
        exact List.mem_singleton_self _)

/-- Claim C7, counterexample: for a single hit with stored utility 0.5 the
store's combined score is `0.7·1 + 0.3·0.5 = 0.85`, but the assembler sets
`relevance_score = 0.5` — the mapped relevance scores differ from the
combined scores the store computed, so the claimed equality is false. -/
theorem C7_counterexample :
    (assemblerVectorSearch candsC7 10 0).map RetrievedContext.relevance_score ≠
      (vectorSearch candsC7 10).map (fun pr => pr.2) := by
  intro h
  have h0 : (assemblerVectorSearch candsC7 10 0).map
      RetrievedContext.relevance_score = [(0.5 : ℚ)] := rfl
  have h1 : (vectorSearch candsC7 10).map (fun pr => pr.2) =
      [(0.7 : ℚ) * (1 - ((0 : ℕ) : ℚ) / max ((1 : ℕ) : ℚ) 1) +
        (0.3 : ℚ) * (0.5 : ℚ)] := rfl
  rw [h0, h1] at h
  simp only [List.cons.injEq, and_true] at h
  rw [Nat.cast_zero, Nat.cast_one, max_self] at h
  norm_num at h

/-! ## Claim C8: search_relationships -/

theorem searchGo_cons (names : List String) (limit : Nat)
    (r : GraphRelationship) (rest : List GraphRelationship)
    (seen : List (String × String × String))
    (found : List GraphRelationship) :
    searchGo names limit (r :: rest) seen found =
      if r.subject ∈ names ∨ r.object ∈ names then
        if (r.subject, r.predicate, r.object) ∈ seen then
          if limit ≤ found.length then found
          else searchGo names limit rest seen found
        else
          if limit ≤ (found ++ [r]).length then found ++ [r]
          else searchGo names limit rest
            ((r.subject, r.predicate, r.object) :: seen) (found ++ [r])
      else
        if limit ≤ found.length then found
        else searchGo names limit rest seen found := rfl

theorem searchGo_spec (names : List String) (limit : Nat) :
    ∀ (rels : List GraphRelationship)
      (seen : List (String × String × String))
      (found : List GraphRelationship),
      (∀ r ∈ found, r.subject ∈ names ∨ r.object ∈ names) →
      ((found.map keyOf).Nodup) →
      (∀ r ∈ found, keyOf r ∈ seen) →
      found.length < limit →
      (∀ r ∈ searchGo names limit rels seen found,
        r.subject ∈ names ∨ r.object ∈ names) ∧
      ((searchGo names limit rels seen found).map keyOf).Nodup ∧
      (∃ extra, searchGo names limit rels seen found = found ++ extra ∧
        extra.Sublist rels) ∧
      (searchGo names limit rels seen found).length ≤ limit := by
  intro rels
  induction rels with
  | nil =>
    intro seen found hP hN hS hL
    exact ⟨hP, hN, ⟨[], by simp [searchGo], List.nil_sublist _⟩,
      Nat.le_of_lt hL⟩
  | cons r rest ih =>
    intro seen found hP hN hS hL
    rw [searchGo_cons]
    by_cases hm : r.subject ∈ names ∨ r.object ∈ names
    · rw [if_pos hm]
      by_cases hseen : (r.subject, r.predicate, r.object) ∈ seen
      · rw [if_pos hseen, if_neg (Nat.not_le.mpr hL)]
        obtain ⟨p1, p2, ⟨extra, heq, hsub⟩, p4⟩ := ih seen found hP hN hS hL
        exact ⟨p1, p2, ⟨extra, heq, hsub.cons r⟩, p4⟩
      · rw [if_neg hseen]
        have hkey : keyOf r ∉ found.map keyOf := by
          intro hmem
          obtain ⟨x, hx, hxr⟩ := List.mem_map.mp hmem
          have : keyOf r ∈ seen := by rw [← hxr]; exact hS x hx
          exact hseen this
        have hP' : ∀ x ∈ found ++ [r], x.subject ∈ names ∨ x.object ∈ names := by
          intro x hx
          rcases List.mem_append.mp hx with hx | hx
          · exact hP x hx
          · rw [List.mem_singleton.mp hx]; exact hm
        have hN' : ((found ++ [r]).map keyOf).Nodup := by
          rw [List.map_append]
          simp [List.nodup_append, hN, hkey]
        have hS' : ∀ x ∈ found ++ [r],
            keyOf x ∈ (r.subject, r.predicate, r.object) :: seen := by
          intro x hx
          rcases List.mem_append.mp hx with hx | hx
          · exact List.mem_cons_of_mem _ (hS x hx)
          · rw [List.mem_singleton.mp hx]; exact List.mem_cons_self _ _
        by_cases hlim : limit ≤ (found ++ [r]).length
        · rw [if_pos hlim]
          refine ⟨hP', hN', ⟨[r], rfl, (List.nil_sublist rest).cons₂ r⟩, ?_⟩
          have hfl : (found ++ [r]).length = found.length + 1 := by simp
          rw [hfl]
          exact Nat.succ_le_of_lt hL
        · rw [if_neg hlim]
          obtain ⟨p1, p2, ⟨extra, heq, hsub⟩, p4⟩ :=
            ih ((r.subject, r.predicate, r.object) :: seen) (found ++ [r])
              hP' hN' hS' (Nat.not_le.mp hlim)
          refine ⟨p1, p2, ⟨r :: extra, ?_, hsub.cons₂ r⟩, p4⟩
          rw [heq, List.append_assoc]
          rfl
    · rw [if_neg hm, if_neg (Nat.not_le.mpr hL)]
      obtain ⟨p1, p2, ⟨extra, heq, hsub⟩, p4⟩ := ih seen found hP hN hS hL
      exact ⟨p1, p2, ⟨extra, heq, hsub.cons r⟩, p4⟩

/-- Claim C8 (amended): for any positive `limit`, the in-memory
`search_relationships` returns only relationships whose subject or object
is among the given names, deduplicated by (subject, predicate, object),
with at most `limit` entries — but in storage (insertion) order, i.e.
OLDEST first, not newest first as claimed (the Cypher back-end orders by
`created_at DESC`; the in-memory back-end never sorts).  A limit of 0 can
additionally return one entry. -/
theorem C8_search_relationships (store : InMemoryGraphStore)
    (names : List String) (limit : Nat) (hl : 1 ≤ limit) :
    (∀ r ∈ searchRelationships store names limit,
      r.subject ∈ names ∨ r.object ∈ names) ∧
    ((searchRelationships store names limit).map keyOf).Nodup ∧
    (searchRelationships store names limit).Sublist store.relationships ∧
    (searchRelationships store names limit).length ≤ limit := by
  obtain ⟨p1, p2, ⟨extra, heq, hsub⟩, p4⟩ :=
    searchGo_spec names limit store.relationships [] [] (by simp) (by simp)
      (by simp) hl
  refine ⟨p1, p2, ?_, p4⟩
  unfold searchRelationships
  rw [heq, List.nil_append]
  exact hsub

/-- Claim C8, witness: searching a two-relationship store for "User" with
limit 2. -/
theorem C8_witness :
    (∀ r ∈ searchRelationships storeC8 ["User"] 2,
      r.subject ∈ ["User"] ∨ r.object ∈ ["User"]) ∧
    ((searchRelationships storeC8 ["User"] 2).map keyOf).Nodup ∧
    (searchRelationships storeC8 ["User"] 2).Sublist storeC8.relationships ∧
    (searchRelationships storeC8 ["User"] 2).length ≤ 2 :=
  C8_search_relationships storeC8 ["User"] 2 (by decide)

/-- Claim C8, counterexample: the in-memory store returns matches oldest
first (insertion order), not newest first — and a limit of 0 still returns
the first matching relationship, so "at most limit entries" also fails at
limit = 0. -/
theorem C8_counterexample :
    (searchRelationships storeC8 ["User"] 10).map GraphRelationship.created_at =
      [0, 5] ∧
    ¬ ((searchRelationships storeC8 ["User"] 10).map
        GraphRelationship.created_at).Sorted (fun a b => b ≤ a) ∧
    (searchRelationships storeC8single ["User"] 0).length = 1 := by
  refine ⟨rfl, ?_, rfl⟩
  intro h
  rw [show (searchRelationships storeC8 ["User"] 10).map
    GraphRelationship.created_at = [0, 5] from rfl] at h
  have h5 : (5 : Nat) ≤ 0 := (List.sorted_cons.mp h).1 5 (by simp)
  omega

/-! ## Claim C4: user-stated facts dominate assistant inferences -/

theorem markGo_length (now : Nat) (existingId sup : String) :
    ∀ l : List GraphRelationship,
      (markGo now existingId sup l).length = l.length := by
  intro l
  induction l with
  | nil => rfl
  | cons r rest ih =>
    unfold markGo
    by_cases hr : r.id = existingId
    · rw [if_pos hr]; simp
    · rw [if_neg hr]; simp [ih]

theorem markContradiction_length (st : InMemoryGraphStore) (now : Nat)
    (existingId sup : String) :
    (markContradiction st now existingId sup).relationships.length =
      st.relationships.length :=
  markGo_length now existingId sup st.relationships

theorem applyHigh_length (rel : RelDict) :
    ∀ (items : List ContradictionItem) (st : InMemoryGraphStore) (c : Nat)
      (recs : List ContradictionRecord) (st2 : InMemoryGraphStore) (c2 : Nat),
      applyHighContradictions rel items st c = .ok (recs, st2, c2) →
      st2.relationships.length = st.relationships.length := by
  intro items
  induction items with
  | nil =>
    intro st c recs st2 c2 h
    simp only [applyHighContradictions, Except.ok.injEq, Prod.mk.injEq] at h
    rw [← h.2.1]
  | cons item rest ih =>
    intro st c recs st2 c2 h
    unfold applyHighContradictions at h
    by_cases hc : item.confidence = some "high"
    · rw [if_pos hc] at h
      cases h1 : item.existing_id with
      | none => simp only [h1] at h; exact Except.noConfusion h
      | some eid =>
        cases h2 : item.existing_statement with
        | none => simp only [h1, h2] at h; exact Except.noConfusion h
        | some stmt =>
          cases h3 : item.reason with
          | none => simp only [h1, h2, h3] at h; exact Except.noConfusion h
          | some rsn =>
            simp only [h1, h2, h3] at h
            cases hrec : applyHighContradictions rel rest
                (markContradiction st c eid (newStatementOf rel)) (c + 1) with
            | error e => simp only [hrec] at h; exact Except.noConfusion h
            | ok out =>
              obtain ⟨recs3, st3, c3⟩ := out
              simp only [hrec, Except.ok.injEq, Prod.mk.injEq] at h
              rw [← h.2.1, ih _ _ _ _ _ hrec, markContradiction_length]
    · rw [if_neg hc] at h
      exact ih st c recs st2 c2 h

theorem checkContradictions_store_length (P : Parsers) (oracle : GenOracle) :
    ∀ (rels : List RelDict) (st : InMemoryGraphStore) (c idx : Nat)
      (recs : List ContradictionRecord) (st2 : InMemoryGraphStore)
      (c2 i2 : Nat),
      checkContradictions P oracle rels st c idx = .ok (recs, st2, c2, i2) →
      st2.relationships.length = st.relationships.length := by
  intro rels
  induction rels with
  | nil =>
    intro st c idx recs st2 c2 i2 h
    simp only [checkContradictions, Except.ok.injEq, Prod.mk.injEq] at h
    rw [← h.2.1]
  | cons rel rest ih =>
    intro st c idx recs st2 c2 i2 h
    unfold checkContradictions at h
    by_cases he : (getRelatedFacts st rel.subject rel.object).isEmpty = true
    · rw [if_pos he] at h
      exact ih st c idx recs st2 c2 i2 h
    · rw [if_neg he] at h
      cases hcr : oracle.contradictionResponses idx with
      | timeout => rw [hcr] at h; exact Except.noConfusion h
      | ok resp =>
        simp only [hcr] at h
        cases hco : contraItemsOf P rel
            (getRelatedFacts st rel.subject rel.object) resp with
        | error e => simp only [hco] at h; exact Except.noConfusion h
        | ok items =>
          simp only [hco] at h
          cases hah : applyHighContradictions rel items st c with
          | error e => simp only [hah] at h; exact Except.noConfusion h
          | ok out1 =>
            obtain ⟨recs1, st1, c1⟩ := out1
            simp only [hah] at h
            cases hrec : checkContradictions P oracle rest st1 c1 (idx + 1) with
            | error e => simp only [hrec] at h; exact Except.noConfusion h
            | ok out =>
              obtain ⟨recs3, st3, c3, i3⟩ := out
              simp only [hrec, Except.ok.injEq, Prod.mk.injEq] at h
              rw [← h.2.1, ih _ _ _ _ _ _ _ hrec,
                applyHigh_length rel items st c recs1 st1 c1 hah]

theorem persistEntities_relationships (now : Nat) :
    ∀ (es : List EntityDict) (st : InMemoryGraphStore),
      (persistEntities now st es).relationships = st.relationships := by
  intro es
  induction es with
  | nil => intro st; rfl
  | cons e rest ih =>
    intro st
    have hstep : persistEntities now st (e :: rest) =
        persistEntities now
          { st with
            entities := setEntity st.entities e.name (upsertEntry now (st.entities.lookup e.name) e) }
          rest := rfl
    rw [hstep, ih]

theorem persistRelationships_spec :
    ∀ (ds : List RelDict) (st : InMemoryGraphStore) (c : Nat),
      ∃ A, (persistRelationships st c ds).1.relationships =
          st.relationships ++ A ∧
        ∀ rec ∈ A, ∃ d ∈ ds, rec.subject = d.subject ∧
          rec.predicate = d.predicate ∧
          rec.source = d.source.getD "user_stated" := by
  intro ds
  induction ds with
  | nil =>
    intro st c
    exact ⟨[], by simp [persistRelationships], by simp⟩
  | cons d rest ih =>
    intro st c
    have hstep : persistRelationships st c (d :: rest) =
        persistRelationships
          { st with relationships :=
              st.relationships ++ [recordOfRelDict c d] } (c + 1) rest := rfl
    obtain ⟨A, hA, hm⟩ := ih
      { st with relationships := st.relationships ++ [recordOfRelDict c d] }
      (c + 1)
    refine ⟨recordOfRelDict c d :: A, ?_, ?_⟩
    · rw [hstep, hA]
      simp
    · intro x hx
      rcases List.mem_cons.mp hx with hx | hx
      · subst hx
        exact ⟨d, List.mem_cons_self _ _, rfl, rfl, rfl⟩
      · obtain ⟨d2, hd2, h1, h2, h3⟩ := hm x hx
        exact ⟨d2, List.mem_cons_of_mem _ hd2, h1, h2, h3⟩

theorem persistContradictions_spec :
    ∀ (contras : List ContradictionRecord) (acc acc2 : InMemoryGraphStore × Nat),
      persistContradictions contras acc = .ok acc2 →
      ∃ A, acc2.1.relationships = acc.1.relationships ++ A ∧
        ∀ rec ∈ A, rec.source = "user_stated" := by
  intro contras
  induction contras with
  | nil =>
    intro acc acc2 h
    have h2 := Except.ok.inj h
    exact ⟨[], by rw [← h2, List.append_nil], by simp⟩
  | cons contra rest ih =>
    intro acc acc2 h
    unfold persistContradictions at h
    cases hd : supersededCopyDict contra.existing_statement with
    | none => rw [hd] at h; exact Except.noConfusion h
    | some d =>
      simp only [hd] at h
      have hds : d.source = none := by
        unfold supersededCopyDict at hd
        split at hd
        · rw [← Option.some.inj hd]
        · exact Option.noConfusion hd
      obtain ⟨A1, hA1, hm1⟩ := persistRelationships_spec [d] acc.1 acc.2
      obtain ⟨A2, hA2, hm2⟩ := ih (persistRelationships acc.1 acc.2 [d]) acc2 h
      refine ⟨A1 ++ A2, ?_, ?_⟩
      · rw [hA2, hA1, List.append_assoc]
      · intro x hx
        rcases List.mem_append.mp hx with hx | hx
        · obtain ⟨d2, hd2, _, _, h3⟩ := hm1 x hx
          rw [List.mem_singleton.mp hd2] at h3
          rw [h3, hds]
          rfl
        · exact hm2 x hx

theorem persistToGraphStore_spec
    (contras : List ContradictionRecord) (st : InMemoryGraphStore) (c : Nat)
    (ents : List EntityDict) (rels : List RelDict)
    (out : InMemoryGraphStore × Nat)
    (h : persistToGraphStore st c ents rels contras = .ok out) :
    ∃ A, out.1.relationships = st.relationships ++ A ∧
      ∀ rec ∈ A,
        (∃ d ∈ rels, rec.subject = d.subject ∧ rec.predicate = d.predicate ∧
          rec.source = d.source.getD "user_stated") ∨
        rec.source = "user_stated" := by
  unfold persistToGraphStore at h
  obtain ⟨A1, hA1, hm1⟩ := persistRelationships_spec rels
    (persistEntities c st ents) (c + 1)
  obtain ⟨A2, hA2, hm2⟩ := persistContradictions_spec contras
    (persistRelationships (persistEntities c st ents) (c + 1) rels) out h
  refine ⟨A1 ++ A2, ?_, ?_⟩
  · rw [hA2, hA1, persistEntities_relationships, List.append_assoc]
  · intro x hx
    rcases List.mem_append.mp hx with hx | hx
    · exact Or.inl (hm1 x hx)
    · exact Or.inr (hm2 x hx)

/-- Claim C4: user-stated relationships are tagged `source = user_stated,
confidence = 1.0` and assistant-inferred ones
`source = assistant_inferred, confidence = 0.3`; and in every completed
`process_turn` run, every assistant-inferred relationship the run added to
the graph store has a (subject, predicate) key that collides with no
user-stated relationship of that turn's merged output — the colliding
inferences were dropped before persistence. -/
theorem C4_user_stated_dominates :
    (∀ rels : List RelDict, ∀ r ∈ tagUser rels,
      r.source = some "user_stated" ∧ r.confidence = some 1) ∧
    (∀ rels : List RelDict, ∀ r ∈ tagAssistant rels,
      r.source = some "assistant_inferred" ∧
        r.confidence = some (0.3 : ℚ)) ∧
    (∀ (P : Parsers) (oracle : GenOracle) (vt : Bool) (u a cid : String)
      (ti : Nat) (store : InMemoryGraphStore) (clock : Nat),
      ∀ rec ∈ addedRelationships store
          (processTurn P oracle vt u a cid ti store clock),
        rec.source = "assistant_inferred" →
        ∀ r2 ∈ turnRelationships
            (processTurn P oracle vt u a cid ti store clock),
          r2.source = some "user_stated" →
          (rec.subject, rec.predicate) ≠ (r2.subject, r2.predicate)) := by
  refine ⟨?_, ?_, ?_⟩
  · intro rels r hr
    obtain ⟨x, _, hxr⟩ := List.mem_map.mp hr
    rw [← hxr]
    exact ⟨rfl, rfl⟩
  · intro rels r hr
    obtain ⟨x, _, hxr⟩ := List.mem_map.mp hr
    rw [← hxr]
    exact ⟨rfl, rfl⟩
  · intro P oracle vt u a cid ti store clock rec hrec hsrc r2 hr2 hr2src heq
    cases hres : processTurn P oracle vt u a cid ti store clock with
    | error e =>
      rw [hres] at hrec
      simp [addedRelationships] at hrec
    | ok res =>
      rw [hres] at hrec hr2
      simp only [addedRelationships, turnRelationships] at hrec hr2
      unfold processTurn at hres
      cases hu : retryOnTimeout oracle.utilityAttempts with
      | error e => simp only [hu] at hres; exact Except.noConfusion hres
      | ok uresp =>
        simp only [hu] at hres
        by_cases hg : gradeOfString uresp = .DISCARD
        · rw [if_pos hg] at hres
          have hres2 := Except.ok.inj hres
          rw [← hres2] at hrec
          simp only [List.drop_length] at hrec
          exact absurd hrec (List.not_mem_nil rec)
        · rw [if_neg hg] at hres
          cases h1 : retryOnTimeout oracle.extractUserAttempts with
          | error e =>
            simp only [h1] at hres
            exact Except.noConfusion hres
          | ok ur =>
          cases h2 : retryOnTimeout oracle.extractAssistantAttempts with
          | error e =>
            simp only [h1, h2] at hres
            exact Except.noConfusion hres
          | ok ar =>
          cases h3 : retryOnTimeout oracle.summaryAttempts with
          | error e =>
            simp only [h1, h2, h3] at hres
            exact Except.noConfusion hres
          | ok sr =>
          cases h4 : retryOnTimeout oracle.queriesAttempts with
          | error e =>
            simp only [h1, h2, h3, h4] at hres
            exact Except.noConfusion hres
          | ok qr =>
          simp only [h1, h2, h3, h4] at hres
          cases hx1 : extractionResult (P.extraction ur) with
          | error e =>
            simp only [hx1] at hres
            exact Except.noConfusion hres
          | ok userData =>
          cases hx2 : extractionResult (P.extraction ar) with
          | error e =>
            simp only [hx1, hx2] at hres
            exact Except.noConfusion hres
          | ok assistantData =>
          simp only [hx1, hx2] at hres
          cases hcc : checkContradictions P oracle
              (mergeTurnRelationships userData.relationships
                assistantData.relationships) store clock 0 with
          | error e =>
            simp only [hcc] at hres
            exact Except.noConfusion hres
          | ok out =>
            obtain ⟨contras, store2, clock2, cc⟩ := out
            simp only [hcc] at hres
            cases hp : persistToGraphStore store2 (clock2 + 1)
                (userData.entities ++ assistantData.entities)
                (mergeTurnRelationships userData.relationships
                  assistantData.relationships) contras with
            | error e =>
              simp only [hp] at hres
              exact Except.noConfusion hres
            | ok persisted =>
              simp only [hp] at hres
              by_cases hv : vt = true ∧
                  (P.embed ("USER: " ++ u ++ "\nASSISTANT: " ++ a)).length ≠
                    EMBED_DIM
              · rw [if_pos hv] at hres
                exact Except.noConfusion hres
              · rw [if_neg hv] at hres
                have hres2 := Except.ok.inj hres
                rw [← hres2] at hrec hr2
                simp only at hrec hr2
                obtain ⟨A, hA, hmem⟩ := persistToGraphStore_spec contras store2
                  (clock2 + 1) (userData.entities ++ assistantData.entities)
                  (mergeTurnRelationships userData.relationships
                    assistantData.relationships) persisted hp
                have hlen : store2.relationships.length =
                    store.relationships.length :=
                  checkContradictions_store_length P oracle _ _ _ _ _ _ _ _ hcc
                rw [hA, ← hlen, List.drop_left] at hrec
                rcases hmem rec hrec with ⟨d, hd, hsubj, hpred, hsrcd⟩ | hus
                · rw [hsrc] at hsrcd
                  simp only [mergeTurnRelationships] at hd hr2
                  rcases List.mem_append.mp hd with hdu | hda
                  · obtain ⟨x, _, hxeq⟩ := List.mem_map.mp hdu
                    rw [← hxeq] at hsrcd
                    simp at hsrcd
                  · have hdec := (List.mem_filter.mp hda).2
                    have hnotin := of_decide_eq_true hdec
                    rcases List.mem_append.mp hr2 with hr2u | hr2a
                    · apply hnotin
                      have hkeys : (d.subject, d.predicate) =
                          (r2.subject, r2.predicate) := by
                        rw [← hsubj, ← hpred]
                        exact heq
                      rw [hkeys]
                      exact List.mem_map_of_mem
                        (fun r => (r.subject, r.predicate)) hr2u
                    · have hta := (List.mem_filter.mp hr2a).1
                      obtain ⟨x, _, hxeq⟩ := List.mem_map.mp hta
                      rw [← hxeq] at hr2src
                      simp at hr2src
                · rw [hsrc] at hus
                  exact absurd hus (by decide)

/-- Claim C4, witness: the source-dominance scenario — the user states
`User WORKS_ON basketcall`, the assistant infers `User WORKS_ON notes-app`
(dropped) and `User USES vim` (kept); the surviving assistant record's key
differs from the user-stated one. -/
theorem C4_witness :
    (recUserC4.source = some "user_stated" ∧ recUserC4.confidence = some 1) ∧
    (recAsstTaggedC4.source = some "assistant_inferred" ∧
      recAsstTaggedC4.confidence = some (0.3 : ℚ)) ∧
    (recAddedC4.subject, recAddedC4.predicate) ≠
      (recUserC4.subject, recUserC4.predicate) :=
  ⟨C4_user_stated_dominates.1 [relUserWorks] recUserC4
      (by rw [show tagUser [relUserWorks] = [recUserC4] from rfl]
          exact List.mem_singleton_self _),
    C4_user_stated_dominates.2.1 [relAsstUses] recAsstTaggedC4
      (by rw [show tagAssistant [relAsstUses] = [recAsstTaggedC4] from rfl]
          exact List.mem_singleton_self _),
    C4_user_stated_dominates.2.2 parsersC4 oracleC4 false
      "I work on basketcall" "Nice" "conv-3" 0 { } 0 recAddedC4
      (by rw [show addedRelationships { }
            (processTurn parsersC4 oracleC4 false "I work on basketcall"
              "Nice" "conv-3" 0 { } 0) = [recAddedUserC4, recAddedC4] from rfl]
          exact List.mem_cons_of_mem _ (List.mem_singleton_self _))
      rfl recUserC4
      (by rw [show turnRelationships
            (processTurn parsersC4 oracleC4 false "I work on basketcall"
              "Nice" "conv-3" 0 { } 0) = [recUserC4, recAsstTaggedC4] from rfl]
          exact List.mem_cons_self _ _)
      rfl⟩

end LCR
